import Mathlib

/-!
# pythonic-with (questions/pythonic-with-33088614/main.cpp)

A shallow embedding of the `with_impl` block driver and of the context
managers it drives.

Conventions of the embedding.

* An exception object is a value of `Exn`; a `std::exception_ptr` is an
  `Option Exn` (`none` is the null pointer).
* A call that can throw returns an `Except Exn _`; where the callee changes
  state before it throws, the state after the call is returned next to it.
* `mgr.exit` is taken to be non-throwing (it returns a `bool` and the state
  after the call): it is called from the destructor.
* `~with_impl()` is declared without `noexcept(false)` and no member has a
  throwing destructor, so it is `noexcept`: an exception that leaves it ends
  the program in `std::terminate` (see `destroy`).
* `assert` is live (no `NDEBUG`): a failed assertion aborts the program.
* The operands of `>=` are those with which the call compiles (`Step`); which
  overload an operand selects is modelled by `resolve`. A callable returning
  `bool` is viable for two templates, so no call with it compiles.
* `trace` is a ghost field: every call the driver makes to `mgr.enter`,
  `mgr.get`, `mgr.exit` or to an attached callable is appended to it, in
  program order, so that invocations can be counted.
-/

namespace PythonicWith

/-- An exception object in flight. -/
inductive Exn where
  /-- Thrown by `std::optional::value()` on an empty optional. -/
  | bad_optional_access
  /-- Any other exception object, told apart by an identity. -/
  | other (id : Nat)
  deriving DecidableEq, Repr

/-- The type `std::exception_ptr`: null, or a handle on an exception object. -/
abbrev exception_ptr := Option Exn

/-- The enumeration `with_impl::Stage`. -/
inductive Stage where
  | WITH
  | ELSE
  | DONE
  deriving DecidableEq, Repr

/-- Position of an enumerator in `enum class Stage { WITH, ELSE, DONE }`. -/
def Stage.toNat : Stage → Nat
  | .WITH => 0
  | .ELSE => 1
  | .DONE => 2

/-- One call made by the driver (ghost). -/
inductive Event where
  /-- The call `mgr.enter(args...)`. -/
  | enter
  /-- The call `mgr.get()`. -/
  | get
  /-- The call `fn(...)` of an attached callable, made in the given stage. -/
  | call (stage : Stage)
  /-- The call `mgr.exit(exception)` with the value of its argument. -/
  | exit (e : exception_ptr)
  deriving DecidableEq, Repr

/-- A `T &` into a manager of state `M`: the object referred to, and the
manager after the object has been left with a given value by the callee. -/
structure Ref (M T : Type) where
  value : T
  assign : T → M

/-- What `with_impl<T>` requires of `context_manager<T>`: a default
constructed manager, `enter`, `get` and `exit`. `Args` are the constructor
arguments forwarded to `enter`. -/
structure ContextManager (M T Args : Type) where
  /-- The default constructed member `mgr`. -/
  init : M
  /-- The member `enter(args...)`: a `bool` or an exception, and the manager afterwards. -/
  enter : M → Args → Except Exn Bool × M
  /-- The member `get()`: a reference to the managed value, or an exception. -/
  get : M → Except Exn (Ref M T)
  /-- The member `exit(exception_ptr)`: a `bool` and the manager afterwards. -/
  exit : M → exception_ptr → Bool × M

/-! ## `context_manager_base<T>` and `context_manager<Resource>` -/

/-- The class `context_manager_base<T>`: its only member is
`std::optional<T> context`. -/
structure context_manager_base (T : Type) where
  context : Option T

namespace context_manager_base

variable {T Args : Type}

/-- `T &get() { return context.value(); }`: `value()` throws
`bad_optional_access` on an empty optional. -/
def get (m : context_manager_base T) : Except Exn (Ref (context_manager_base T) T) :=
  match m.context with
  | some v => .ok ⟨v, fun w => ⟨some w⟩⟩
  | none => .error .bad_optional_access

/-- `enter(args...)`: `context.emplace(args...); return true;`. `ctor` is the
constructor of `T` selected by the arguments; when it throws, `emplace` leaves
the optional empty and the exception leaves `enter`. -/
def enter (ctor : Args → Except Exn T) (_m : context_manager_base T) (args : Args) :
    Except Exn Bool × context_manager_base T :=
  match ctor args with
  | .ok v => (.ok true, ⟨some v⟩)
  | .error e => (.error e, ⟨none⟩)

/-- `exit(std::exception_ptr)`: `context.reset(); return true;`. -/
def exit (_m : context_manager_base T) (_e : exception_ptr) : Bool × context_manager_base T :=
  (true, ⟨none⟩)

end context_manager_base

/-- The primary template `context_manager<T>`, which inherits everything from
`context_manager_base<T>`; `ctor` is the constructor of `T`. -/
def context_manager (T Args : Type) (ctor : Args → Except Exn T) :
    ContextManager (context_manager_base T) T Args where
  init := ⟨none⟩
  enter := context_manager_base.enter ctor
  get := context_manager_base.get
  exit := context_manager_base.exit

/-- The class `Resource`. -/
structure Resource where
  str : String
  successful : Bool
  deriving DecidableEq, Repr

/-- The arguments `with<Resource>` is called with: the string, and the flag
when it is given. -/
abbrev ResourceArgs := String × Option Bool

/-- `Resource(const std::string &str, bool succeed = true)`. -/
def Resource.ctor (args : ResourceArgs) : Resource :=
  ⟨args.1, args.2.getD true⟩

/-- `context_manager<Resource>::enter`:
`context.emplace(args...); return context.value().successful;`. -/
def context_manager_Resource.enter (_m : context_manager_base Resource) (args : ResourceArgs) :
    Except Exn Bool × context_manager_base Resource :=
  let m : context_manager_base Resource := ⟨some (Resource.ctor args)⟩
  match m.context with
  | some r => (.ok r.successful, m)
  | none => (.error .bad_optional_access, m)

/-- The specialization `context_manager<Resource>`: `enter` is replaced, `get`
and `exit` are those of `context_manager_base<Resource>`. -/
def context_manager_Resource :
    ContextManager (context_manager_base Resource) Resource ResourceArgs where
  init := ⟨none⟩
  enter := context_manager_Resource.enter
  get := context_manager_base.get
  exit := context_manager_base.exit

/-! ## `with_impl<T>` -/

/-- The data members of `with_impl<T>`, and the ghost trace. -/
structure with_impl (M : Type) where
  mgr : M
  ok : Bool
  stage : Stage
  exception : exception_ptr
  trace : List Event

/-- How a call of `operator>=` ends. -/
inductive Result (M : Type) where
  /-- `return *this;` -/
  | ret (s : with_impl M)
  /-- An exception leaves the operator; `s` is the block at that point. -/
  | throw (e : Exn) (s : with_impl M)
  /-- An `assert` failed; `s` is the block at that point. -/
  | abort (s : with_impl M)

/-- The block a call ended with. -/
def Result.state {M : Type} : Result M → with_impl M
  | .ret s => s
  | .throw _ s => s
  | .abort s => s

/-- Whether the call ended in a failed `assert`. -/
def Result.aborted {M : Type} : Result M → Bool
  | .abort _ => true
  | _ => false

/-- Whether the call ended by returning `*this`. -/
def Result.returned {M : Type} : Result M → Bool
  | .ret _ => true
  | _ => false

namespace with_impl

variable {M T Args : Type}

/-- `explicit with_impl(Ts &&... args)`:
`try { ok = mgr.enter(args...); } catch (...) { ok = false; }`,
with the default member initializers `stage = Stage::WITH`, `exception = {}`. -/
def ctor (A : ContextManager M T Args) (args : Args) : with_impl M :=
  match A.enter A.init args with
  | (.ok b, m) => ⟨m, b, .WITH, none, [.enter]⟩
  | (.error _, m) => ⟨m, false, .WITH, none, [.enter]⟩

/-- `explicit with_impl(pass_exceptions_t, Ts &&... args)`:
`ok = mgr.enter(args...);` with no handler, so that an exception thrown by
`enter` leaves the constructor and no block exists. -/
def ctor_pass_exceptions (A : ContextManager M T Args) (args : Args) :
    Except Exn (with_impl M) :=
  match A.enter A.init args with
  | (.ok b, m) => .ok ⟨m, b, .WITH, none, [.enter]⟩
  | (.error e, _) => .error e

/-- The statement
`if (!mgr.exit(exception) && exception) std::rethrow_exception(exception);`
of the destructor and of both `ELSE` branches: the exception rethrown, if any,
and the block after the call of `exit`. -/
def exit_rethrow (A : ContextManager M T Args) (s : with_impl M) :
    Option Exn × with_impl M :=
  let r := A.exit s.mgr s.exception
  let s1 : with_impl M := { s with mgr := r.2, trace := s.trace ++ [.exit s.exception] }
  match r.1, s.exception with
  | false, some e => (some e, s1)
  | _, _ => (none, s1)

/-- The destructor `~with_impl()`: the exception its body rethrows, if any. -/
def dtor (A : ContextManager M T Args) (s : with_impl M) : Option Exn × with_impl M :=
  exit_rethrow A s

/-- `with_impl &operator>=(else_t *)`: `assert(stage == Stage::ELSE); return *this;`. -/
def operator_ge_else (s : with_impl M) : Result M :=
  if s.stage = .ELSE then .ret s else .abort s

/-- `operator>=(Fn &&fn)` for `Fn` invocable as `void(T &)`. -/
def operator_ge_void_value (A : ContextManager M T Args) (s : with_impl M)
    (fn : T → Except Exn Unit × T) : Result M :=
  if s.stage = .WITH then
    let s1 : with_impl M :=
      if s.ok then
        match A.get s.mgr with
        | .error e => { s with exception := some e, trace := s.trace ++ [.get] }
        | .ok r =>
          match fn r.value with
          | (.ok _, v) =>
            { s with mgr := r.assign v, trace := s.trace ++ [.get, .call .WITH] }
          | (.error e, v) =>
            { s with mgr := r.assign v, exception := some e,
                     trace := s.trace ++ [.get, .call .WITH] }
      else s
    .ret { s1 with stage := .ELSE }
  else .abort s

/-- `operator>=(Fn &&fn)` for `Fn` invocable as `bool(T &)`. -/
def operator_ge_bool_value (A : ContextManager M T Args) (s : with_impl M)
    (fn : T → Except Exn Bool × T) : Result M :=
  if s.stage = .WITH then
    let s1 : with_impl M :=
      if s.ok then
        match A.get s.mgr with
        | .error e => { s with exception := some e, trace := s.trace ++ [.get] }
        | .ok r =>
          match fn r.value with
          | (.ok b, v) =>
            { s with mgr := r.assign v, ok := b, trace := s.trace ++ [.get, .call .WITH] }
          | (.error e, v) =>
            { s with mgr := r.assign v, exception := some e,
                     trace := s.trace ++ [.get, .call .WITH] }
      else s
    .ret { s1 with stage := .ELSE }
  else .abort s

/-- The `else` branch shared, statement for statement, by the two no-argument
overloads: `assert(stage == Stage::ELSE); if (!ok) fn();` then the
exit-and-rethrow statement, then `stage = Stage::DONE;`. The value `fn`
returns is discarded, so only whether it throws is passed in. -/
def else_branch (A : ContextManager M T Args) (s : with_impl M)
    (fn : Unit → Except Exn Unit) : Result M :=
  if s.stage = .ELSE then
    match (if s.ok then (Except.ok (), s)
           else (fn (), { s with trace := s.trace ++ [.call .ELSE] })) with
    | (.error e, s1) => .throw e s1
    | (.ok _, s1) =>
      match exit_rethrow A s1 with
      | (some e, s2) => .throw e s2
      | (none, s2) => .ret { s2 with stage := .DONE }
  else .abort s

/-- `operator>=(Fn &&fn)` for `Fn` invocable as `void()`. -/
def operator_ge_void_noarg (A : ContextManager M T Args) (s : with_impl M)
    (fn : Unit → Except Exn Unit) : Result M :=
  if s.stage = .DONE then .abort s
  else if s.stage = .WITH then
    let s1 : with_impl M :=
      if s.ok then
        match fn () with
        | .ok _ => { s with trace := s.trace ++ [.call .WITH] }
        | .error e => { s with exception := some e, trace := s.trace ++ [.call .WITH] }
      else s
    .ret { s1 with stage := .ELSE }
  else else_branch A s fn

/-- `operator>=(Fn &&fn)` for `Fn` invocable as `bool()`. -/
def operator_ge_bool_noarg (A : ContextManager M T Args) (s : with_impl M)
    (fn : Unit → Except Exn Bool) : Result M :=
  if s.stage = .DONE then .abort s
  else if s.stage = .WITH then
    let s1 : with_impl M :=
      if s.ok then
        match fn () with
        | .ok b => { s with ok := b, trace := s.trace ++ [.call .WITH] }
        | .error e => { s with exception := some e, trace := s.trace ++ [.call .WITH] }
      else s
    .ret { s1 with stage := .ELSE }
  else else_branch A s (fun u => (fn u).map (fun _ => ()))

end with_impl

/-! ## Overload resolution of `operator>=` -/

/-- What the constraints of the overloads of `operator>=` see of a right
operand: the pointer `else_`, or a callable, with whether it is invoked with
the managed value (`T &`) or with no argument, and whether what it returns
converts to `bool` (a callable returning `void` does not). -/
inductive Operand where
  | else_ptr
  | callable (takes_value : Bool) (returns_bool : Bool)
  deriving DecidableEq, Repr

/-- The five overloads of `with_impl::operator>=`, in the order of the
source. -/
inductive Overload where
  /-- The overload `operator>=(else_t *)`. -/
  | else_tag
  /-- The template enabled by `is_invocable_r_v<void, Fn, decltype(mgr.get())>`. -/
  | void_value
  /-- The template enabled by `is_invocable_r_v<bool, Fn, decltype(mgr.get())>`. -/
  | bool_value
  /-- The template enabled by `is_invocable_r_v<void, Fn>`. -/
  | void_noarg
  /-- The template enabled by `is_invocable_r_v<bool, Fn>`. -/
  | bool_noarg
  deriving DecidableEq, Repr

/-- Whether an overload is viable for an operand. `is_invocable_r_v<void, ...>`
holds for a callable whatever it returns, since every result converts to
`void`; `is_invocable_r_v<bool, ...>` holds when the result converts to
`bool`. The pointer `else_` is not invocable and only fits `else_t *`. -/
def Overload.viable : Overload → Operand → Bool
  | .else_tag, .else_ptr => true
  | .void_value, .callable true _ => true
  | .bool_value, .callable true returns_bool => returns_bool
  | .void_noarg, .callable false _ => true
  | .bool_noarg, .callable false returns_bool => returns_bool
  | _, _ => false

/-- The overloads viable for an operand. -/
def viable_overloads (t : Operand) : List Overload :=
  [Overload.else_tag, .void_value, .bool_value, .void_noarg, .bool_noarg].filter
    (fun o => o.viable t)

/-- Overload resolution of `block >= operand`: the overload that is called,
when there is one. The four templates have the same parameter `Fn &&` and
differ only in their `enable_if_t` return type, so none is more specialized
than another: when two of them are viable the call is ambiguous and the
program is ill-formed. -/
def resolve (t : Operand) : Option Overload :=
  match viable_overloads t with
  | [o] => some o
  | _ => none

/-! ## Chains and full expressions -/

/-- The right operand of one `>=` in a chain, for the operands with which the
expression compiles: the tag and the callables returning `void` (see
`resolve`: with a callable returning `bool` the call is ambiguous). -/
inductive Step (T : Type) where
  /-- The tag `else_`. -/
  | else_tag
  /-- A callable invocable as `void(T &)`. -/
  | void_value (fn : T → Except Exn Unit × T)
  /-- A callable invocable as `void()`. -/
  | void_noarg (fn : Unit → Except Exn Unit)

/-- Whether the operand is a callable taking the managed value. -/
def Step.takes_value {T : Type} : Step T → Bool
  | .void_value _ => true
  | _ => false

/-- Whether the operand is a callable taking no argument. -/
def Step.no_arg {T : Type} : Step T → Bool
  | .void_noarg _ => true
  | _ => false

/-- Whether the operand is the tag `else_`. -/
def Step.is_else_tag {T : Type} : Step T → Bool
  | .else_tag => true
  | _ => false

/-- What the constraints of the overloads see of the operand. -/
def Step.operand {T : Type} : Step T → Operand
  | .else_tag => .else_ptr
  | .void_value _ => .callable true false
  | .void_noarg _ => .callable false false

/-- The call `block >= operand`: the overload that `resolve` selects for the
operand, applied to it. -/
def attach {M T Args : Type} (A : ContextManager M T Args) (s : with_impl M) :
    Step T → Result M
  | .else_tag => with_impl.operator_ge_else s
  | .void_value fn => with_impl.operator_ge_void_value A s fn
  | .void_noarg fn => with_impl.operator_ge_void_noarg A s fn

/-- The chain `block >= op1 >= op2 >= ...`, evaluated left to right; it stops
at the first operator that does not return. -/
def chain {M T Args : Type} (A : ContextManager M T Args) (s : with_impl M) :
    List (Step T) → Result M
  | [] => .ret s
  | op :: rest =>
    match attach A s op with
    | .ret s1 => chain A s1 rest
    | r => r

/-- How a full expression ends for the code around it. -/
inductive Completion where
  /-- The statement completes and control goes on. -/
  | normal
  /-- The exception propagates into the enclosing scope. -/
  | raised (e : Exn)
  /-- The function `std::terminate` is called. -/
  | terminate
  /-- A failed `assert` aborts the program. -/
  | abort
  deriving DecidableEq, Repr

/-- Destruction of the temporary block, when the chain has ended in `r`: at
the end of the full expression when the chain returned, during stack
unwinding when an exception `pending` left it. `~with_impl()` has no
`noexcept(false)`, so it is `noexcept`: when its body rethrows (`dtor` returns
`some _`), the exception cannot leave the destructor and `std::terminate` is
called; the same holds for any exception leaving a destructor during
unwinding. After a failed `assert` the program aborts and no destructor
runs. -/
def destroy {M T Args : Type} (A : ContextManager M T Args) :
    Result M → Completion × List Event
  | .ret s =>
    match with_impl.dtor A s with
    | (none, s1) => (.normal, s1.trace)
    | (some _, s1) => (.terminate, s1.trace)
  | .throw pending s =>
    match with_impl.dtor A s with
    | (none, s1) => (.raised pending, s1.trace)
    | (some _, s1) => (.terminate, s1.trace)
  | .abort s => (.abort, s.trace)

/-- The full expression `with<T>(args...) >= op1 >= ...;`: the temporary is
built by `with`, the chain runs, and the temporary is destroyed at the end of
the full expression. Returns how it ends and the calls made. -/
def with_ {M T Args : Type} (A : ContextManager M T Args) (args : Args)
    (ops : List (Step T)) : Completion × List Event :=
  destroy A (chain A (with_impl.ctor A args) ops)

/-! ## Observations used to state the properties -/

/-- Number of calls of `mgr.exit` in a trace. -/
def exit_calls (tr : List Event) : Nat :=
  (tr.filter (fun ev => match ev with | .exit _ => true | _ => false)).length

/-- Number of calls of an attached callable made while the block was in
stage `st`. -/
def body_calls (st : Stage) (tr : List Event) : Nat :=
  tr.count (.call st)

/-- What a callable does when it is invoked, with `v` for the managed value if
it takes one: the exception it throws, or the `bool` it returns (`none` for a
callable returning `void`). The tag `else_` is not a callable. -/
def Step.outcome {T : Type} (v : T) : Step T → Option (Except Exn (Option Bool))
  | .else_tag => none
  | .void_value fn =>
    match (fn v).1 with
    | .ok _ => some (.ok none)
    | .error e => some (.error e)
  | .void_noarg fn =>
    match fn () with
    | .ok _ => some (.ok none)
    | .error e => some (.error e)

/-- The forbidden stages as the specification lists them: any callable or the
tag `else_` attached in stage `DONE`, and a callable that takes the managed
value attached in stage `ELSE`. -/
def spec_forbidden {T : Type} (p : Step T) (st : Stage) : Bool :=
  decide (st = .DONE) || (p.takes_value && decide (st = .ELSE))

/-! ## The statements of `main`, and inputs used below -/

/-- The primary body of the statement in the loop of `main`:
`[&](auto &r) { r.say("Hello"); std::cout << "3. Doing work\n"; }`. It prints
and returns. -/
def main_body : Step Resource :=
  .void_value (fun r => (.ok (), r))

/-- The alternate body of the statement in the loop of `main`:
`[&] { std::cout << "4. Can't do work\n"; }`. It prints and returns. -/
def main_fallback : Step Resource :=
  .void_noarg (fun _ => .ok ())

/-- The statement in the loop of `main`:
`with<Resource>("bar", succeed) >= body >= else_ >= fallback;`. -/
def main_loop_statement (succeed : Bool) : Completion × List Event :=
  with_ context_manager_Resource ("bar", some succeed) [main_body, .else_tag, main_fallback]

/-- A primary body `[&](auto &r) { throw e; }`. -/
def raising_body (e : Exn) : Step Resource :=
  .void_value (fun r => (.error e, r))

/-- An alternate body `[&] { throw e; }`. -/
def raising_fallback (e : Exn) : Step Resource :=
  .void_noarg (fun _ => .error e)

/-- A context manager for `Resource` as a user may specialize it: that of
`main.cpp`, except that `exit` returns `false` (the exception is not
consumed). -/
def context_manager_Resource_not_consuming :
    ContextManager (context_manager_base Resource) Resource ResourceArgs where
  init := ⟨none⟩
  enter := context_manager_Resource.enter
  get := context_manager_base.get
  exit := fun _ _ => (false, ⟨none⟩)

/-- A constructor of a managed type `Nat` that throws when its argument is 0. -/
def throwing_ctor (n : Nat) : Except Exn Nat :=
  if n = 0 then .error (.other 0) else .ok n

/-- Number of calls of `mgr.get` in a trace. -/
def get_calls (tr : List Event) : Nat :=
  tr.count .get

/-- Whether the operand is a callable returning `void`. -/
def Step.returns_void {T : Type} : Step T → Bool
  | .void_value _ => true
  | .void_noarg _ => true
  | _ => false

/-- The first statement of `main`:
`with<Resource>("foo") >= [&] { std::cout << "1. Doing work\n"; };`. -/
def main_statement_1 : Completion × List Event :=
  with_ context_manager_Resource ("foo", none) [.void_noarg (fun _ => .ok ())]

/-- The second statement of `main`:
`with<Resource>("bar", true) >= [&](auto &r) { r.say("2. Doing work too"); };`. -/
def main_statement_2 : Completion × List Event :=
  with_ context_manager_Resource ("bar", some true) [.void_value (fun r => (.ok (), r))]

/-! ## Lemmas on the driver -/

section lemmas
variable {M T Args : Type}

@[simp]
theorem exit_rethrow_ok (A : ContextManager M T Args) (s : with_impl M) :
    (with_impl.exit_rethrow A s).2.ok = s.ok := by
  simp only [with_impl.exit_rethrow]; split <;> rfl

@[simp]
theorem exit_rethrow_stage (A : ContextManager M T Args) (s : with_impl M) :
    (with_impl.exit_rethrow A s).2.stage = s.stage := by
  simp only [with_impl.exit_rethrow]; split <;> rfl

@[simp]
theorem exit_rethrow_exception (A : ContextManager M T Args) (s : with_impl M) :
    (with_impl.exit_rethrow A s).2.exception = s.exception := by
  simp only [with_impl.exit_rethrow]; split <;> rfl

@[simp]
theorem exit_rethrow_trace (A : ContextManager M T Args) (s : with_impl M) :
    (with_impl.exit_rethrow A s).2.trace = s.trace ++ [.exit s.exception] := by
  simp only [with_impl.exit_rethrow]; split <;> rfl

@[simp]
theorem exit_rethrow_mgr (A : ContextManager M T Args) (s : with_impl M) :
    (with_impl.exit_rethrow A s).2.mgr = (A.exit s.mgr s.exception).2 := by
  simp only [with_impl.exit_rethrow]; split <;> rfl

theorem exit_rethrow_fst (A : ContextManager M T Args) (s : with_impl M) :
    (with_impl.exit_rethrow A s).1
      = if (A.exit s.mgr s.exception).1 = false then s.exception else none := by
  simp only [with_impl.exit_rethrow]
  cases h1 : (A.exit s.mgr s.exception).1 <;> cases h2 : s.exception <;> simp

/-- Trace left by the destruction of the temporary. -/
theorem destroy_trace (A : ContextManager M T Args) (r : Result M) :
    (destroy A r).2
      = if r.aborted then r.state.trace else r.state.trace ++ [.exit r.state.exception] := by
  cases r with
  | ret s =>
    simp only [destroy, with_impl.dtor, Result.aborted, Result.state]
    rcases h : with_impl.exit_rethrow A s with ⟨_ | e, s1⟩ <;>
      simp [← exit_rethrow_trace A s, h]
  | throw e s =>
    simp only [destroy, with_impl.dtor, Result.aborted, Result.state]
    rcases h : with_impl.exit_rethrow A s with ⟨_ | e, s1⟩ <;>
      simp [← exit_rethrow_trace A s, h]
  | abort s => rfl


theorem body_calls_append (st : Stage) (xs ys : List Event) :
    body_calls st (xs ++ ys) = body_calls st xs + body_calls st ys := by
  simp [body_calls]

@[simp]
theorem body_calls_exit (st : Stage) (e : exception_ptr) :
    body_calls st [.exit e] = 0 := by
  simp [body_calls]

/-- Destruction of the temporary invokes no attached callable. -/
theorem destroy_body_calls (A : ContextManager M T Args) (r : Result M) (st : Stage) :
    body_calls st (destroy A r).2 = body_calls st r.state.trace := by
  rw [destroy_trace]
  split
  · rfl
  · simp [body_calls_append]

theorem chain_single (A : ContextManager M T Args) (s : with_impl M) (a : Step T) :
    chain A s [a] = attach A s a := by
  simp only [chain]
  cases attach A s a <;> rfl

/-- In stage `WITH` with `ok` false, every callable is skipped and the stage
becomes `ELSE`. -/
theorem attach_WITH_not_ok (A : ContextManager M T Args) (s : with_impl M) (p : Step T)
    (hst : s.stage = .WITH) (hok : s.ok = false) (hp : p.is_else_tag = false) :
    attach A s p = .ret { s with stage := .ELSE } := by
  cases p <;>
    simp_all [attach, Step.is_else_tag, with_impl.operator_ge_void_value,
      with_impl.operator_ge_void_noarg]

theorem attach_else_tag_ELSE (A : ContextManager M T Args) (s : with_impl M)
    (hst : s.stage = .ELSE) : attach A s .else_tag = .ret s := by
  simp [attach, with_impl.operator_ge_else, hst]

/-- The block and the calls after the `ELSE` branch of a no-argument overload. -/
theorem else_branch_calls (A : ContextManager M T Args) (s : with_impl M)
    (fn : Unit → Except Exn Unit) (hst : s.stage = .ELSE) (st : Stage) :
    (with_impl.else_branch A s fn).aborted = false ∧
    body_calls st (with_impl.else_branch A s fn).state.trace
      = body_calls st s.trace + (if st = .ELSE ∧ s.ok = false then 1 else 0) := by
  unfold with_impl.else_branch
  rw [if_pos hst]
  cases hok : s.ok
  · rcases hfn : fn () with e | u
    · cases st <;> simp [Result.aborted, Result.state, body_calls]
    · simp only [Bool.false_eq_true, if_false]
      rcases hx : with_impl.exit_rethrow A _ with ⟨_ | e, s2⟩
      · have h2 := congrArg (fun x => x.2.trace) hx
        simp only [exit_rethrow_trace] at h2
        cases st <;> simp [Result.aborted, Result.state, body_calls, ← h2]
      · have h2 := congrArg (fun x => x.2.trace) hx
        simp only [exit_rethrow_trace] at h2
        cases st <;> simp [Result.aborted, Result.state, body_calls, ← h2]
  · simp only [if_true]
    rcases hx : with_impl.exit_rethrow A _ with ⟨_ | e, s2⟩
    · have h2 := congrArg (fun x => x.2.trace) hx
      simp only [exit_rethrow_trace] at h2
      cases st <;> simp [Result.aborted, Result.state, body_calls, ← h2]
    · have h2 := congrArg (fun x => x.2.trace) hx
      simp only [exit_rethrow_trace] at h2
      cases st <;> simp [Result.aborted, Result.state, body_calls, ← h2]


/-- A no-argument callable attached in stage `ELSE` is accepted, and is
invoked exactly when `ok` is false. -/
theorem attach_no_arg_ELSE_calls (A : ContextManager M T Args) (s : with_impl M) (a : Step T)
    (hst : s.stage = .ELSE) (ha : a.no_arg = true) (st : Stage) :
    (attach A s a).aborted = false ∧
    body_calls st (attach A s a).state.trace
      = body_calls st s.trace + (if st = .ELSE ∧ s.ok = false then 1 else 0) := by
  cases a <;> simp [Step.no_arg] at ha
  · simpa [attach, with_impl.operator_ge_void_noarg, hst] using else_branch_calls A s _ hst st

/-- The block built by the ordinary constructor when `enter` returns `b`. -/
theorem ctor_of_enter (A : ContextManager M T Args) (args : Args) (b : Bool)
    (henter : (A.enter A.init args).1 = .ok b) :
    with_impl.ctor A args = ⟨(A.enter A.init args).2, b, .WITH, none, [.enter]⟩ := by
  unfold with_impl.ctor
  rcases hE : A.enter A.init args with ⟨r, m⟩
  rw [hE] at henter
  simp only at henter
  subst henter
  rfl

/-- A primary body that throws: the exception is stored, `ok` stays true and
the operator returns. -/
theorem primary_raises (A : ContextManager M T Args) (s : with_impl M) (p : Step T) (v : T)
    (e : Exn) (hst : s.stage = .WITH) (hok : s.ok = true)
    (hv : p.takes_value = true → ∃ r, A.get s.mgr = .ok r ∧ r.value = v)
    (hp : p.outcome v = some (.error e)) :
    ∃ s1, attach A s p = .ret s1 ∧ s1.ok = true ∧ s1.stage = .ELSE ∧
      s1.exception = some e ∧
      s1.trace = s.trace ++ (if p.takes_value then [.get] else []) ++ [.call .WITH] := by
  cases p with
  | else_tag => simp [Step.outcome] at hp
  | void_value fn =>
    obtain ⟨r, hr, rfl⟩ := hv rfl
    rcases hfn : fn r.value with ⟨res, w⟩
    cases res <;> simp [Step.outcome, hfn] at hp
    subst hp
    refine ⟨_, by
      simp only [attach, with_impl.operator_ge_void_value, hst, hok, hr, hfn, if_true]
      rfl, ?_⟩
    simp [Step.takes_value]
  | void_noarg fn =>
    rcases hfn : fn () with e1 | u <;> simp [Step.outcome, hfn] at hp
    subst hp
    refine ⟨_, by
      simp only [attach, with_impl.operator_ge_void_noarg, hst, hok, hfn, if_true]
      rfl, ?_⟩
    simp [Step.takes_value]

/-- A primary body that returns: `ok` and the stored exception are kept. -/
theorem primary_returns (A : ContextManager M T Args) (s : with_impl M) (p : Step T) (v : T)
    (x : Option Bool) (hst : s.stage = .WITH) (hok : s.ok = true)
    (hv : p.takes_value = true → ∃ r, A.get s.mgr = .ok r ∧ r.value = v)
    (hp : p.outcome v = some (.ok x)) :
    ∃ s1, attach A s p = .ret s1 ∧ s1.ok = x.getD true ∧ s1.stage = .ELSE ∧
      s1.exception = s.exception ∧
      s1.trace = s.trace ++ (if p.takes_value then [.get] else []) ++ [.call .WITH] := by
  cases p with
  | else_tag => simp [Step.outcome] at hp
  | void_value fn =>
    obtain ⟨r, hr, rfl⟩ := hv rfl
    rcases hfn : fn r.value with ⟨res, w⟩
    cases res <;> simp [Step.outcome, hfn] at hp
    subst hp
    refine ⟨_, by
      simp only [attach, with_impl.operator_ge_void_value, hst, hok, hr, hfn, if_true]
      rfl, ?_⟩
    simp [Step.takes_value]
  | void_noarg fn =>
    rcases hfn : fn () with e1 | u <;> simp [Step.outcome, hfn] at hp
    subst hp
    refine ⟨_, by
      simp only [attach, with_impl.operator_ge_void_noarg, hst, hok, hfn, if_true]
      rfl, ?_⟩
    simp [Step.takes_value]

/-- The `ELSE` branch when `ok` is true: the callable is skipped. -/
theorem alternate_skipped (A : ContextManager M T Args) (s : with_impl M) (a : Step T)
    (hst : s.stage = .ELSE) (hok : s.ok = true) (ha : a.no_arg = true) :
    attach A s a =
      match (with_impl.exit_rethrow A s).1 with
      | some e => .throw e (with_impl.exit_rethrow A s).2
      | none => .ret { (with_impl.exit_rethrow A s).2 with stage := .DONE } := by
  cases a <;> simp [Step.no_arg] at ha
  simp only [attach, with_impl.operator_ge_void_noarg, with_impl.else_branch, hst, hok,
    if_true, if_false, reduceCtorEq]
  rcases with_impl.exit_rethrow A s with ⟨_ | e, s2⟩ <;> rfl

/-- The `ELSE` branch when `ok` is false and the callable returns. -/
theorem alternate_returns (A : ContextManager M T Args) (s : with_impl M) (a : Step T) (v : T)
    (x : Option Bool) (hst : s.stage = .ELSE) (hok : s.ok = false) (ha : a.no_arg = true)
    (hax : a.outcome v = some (.ok x)) :
    attach A s a =
      match (with_impl.exit_rethrow A { s with trace := s.trace ++ [.call .ELSE] }).1 with
      | some e =>
        .throw e (with_impl.exit_rethrow A { s with trace := s.trace ++ [.call .ELSE] }).2
      | none =>
        .ret { (with_impl.exit_rethrow A { s with trace := s.trace ++ [.call .ELSE] }).2
               with stage := .DONE } := by
  cases a <;> simp [Step.no_arg] at ha
  · (rename_i fn
     rcases hfn : fn () with e1 | u <;> simp [Step.outcome, hfn] at hax
     simp only [attach, with_impl.operator_ge_void_noarg, with_impl.else_branch, hst, hok,
       if_true, if_false, reduceCtorEq, hfn, Except.map,
      Bool.false_eq_true]
     rcases with_impl.exit_rethrow A _ with ⟨_ | e, s2⟩ <;> rfl)

/-- The `ELSE` branch when `ok` is false and the callable throws: the
exception leaves the operator before the call of `exit`. -/
theorem alternate_raises (A : ContextManager M T Args) (s : with_impl M) (a : Step T) (v : T)
    (e : Exn) (hst : s.stage = .ELSE) (hok : s.ok = false) (ha : a.no_arg = true)
    (hax : a.outcome v = some (.error e)) :
    attach A s a = .throw e { s with trace := s.trace ++ [.call .ELSE] } := by
  cases a <;> simp [Step.no_arg] at ha
  · (rename_i fn
     rcases hfn : fn () with e1 | u <;> simp [Step.outcome, hfn] at hax
     simp [attach, with_impl.operator_ge_void_noarg, with_impl.else_branch, hst, hok, hfn,
       Except.map, hax])

/-- How the statement ends when the chain has returned. -/
theorem destroy_ret (A : ContextManager M T Args) (s : with_impl M) :
    (destroy A (.ret s)).1
      = match (with_impl.exit_rethrow A s).1 with
        | none => .normal
        | some _ => .terminate := by
  simp only [destroy, with_impl.dtor]
  rcases with_impl.exit_rethrow A s with ⟨_ | e, s2⟩ <;> rfl

/-- How the statement ends when an exception has left the chain. -/
theorem destroy_throw (A : ContextManager M T Args) (e : Exn) (s : with_impl M) :
    (destroy A (.throw e s)).1
      = match (with_impl.exit_rethrow A s).1 with
        | none => .raised e
        | some _ => .terminate := by
  simp only [destroy, with_impl.dtor]
  rcases with_impl.exit_rethrow A s with ⟨_ | e1, s2⟩ <;> rfl

/-- Nothing is rethrown when no exception is stored. -/
theorem exit_rethrow_of_no_exception (A : ContextManager M T Args) (s : with_impl M)
    (h : s.exception = none) : (with_impl.exit_rethrow A s).1 = none := by
  rw [exit_rethrow_fst, h]; simp

/-- Nothing is rethrown when `exit` returns `true`. -/
theorem exit_rethrow_of_consumed (A : ContextManager M T Args) (s : with_impl M)
    (h : (A.exit s.mgr s.exception).1 = true) : (with_impl.exit_rethrow A s).1 = none := by
  rw [exit_rethrow_fst, h]; simp

theorem chain_cons_ret (A : ContextManager M T Args) (s s1 : with_impl M) (p : Step T)
    (rest : List (Step T)) (h : attach A s p = .ret s1) :
    chain A s (p :: rest) = chain A s1 rest := by
  rw [chain, h]

theorem chain_else_tag (A : ContextManager M T Args) (s : with_impl M)
    (rest : List (Step T)) (hst : s.stage = .ELSE) :
    chain A s (.else_tag :: rest) = chain A s rest :=
  chain_cons_ret A s s .else_tag rest (attach_else_tag_ELSE A s hst)

/-- An alternate body attached in stage `ELSE`, when it does not throw and no
call of `exit` on this block leads to a rethrow: the statement completes
normally, the body having been invoked exactly when `ok` is false, and
`exit` having been called in the step and again in the destructor. -/
theorem alternate_then_destroy (A : ContextManager M T Args) (s : with_impl M) (a : Step T)
    (v : T) (x : Option Bool) (hst : s.stage = .ELSE) (ha : a.no_arg = true)
    (hax : s.ok = false → a.outcome v = some (.ok x))
    (hx : ∀ s1 : with_impl M, s1.exception = s.exception →
      (with_impl.exit_rethrow A s1).1 = none) :
    destroy A (attach A s a)
      = (.normal, s.trace ++ (if s.ok then [] else [.call .ELSE])
          ++ [.exit s.exception, .exit s.exception]) := by
  cases hok : s.ok
  · have h := alternate_returns A s a v x hst hok ha (hax hok)
    rw [hx { s with trace := s.trace ++ [.call .ELSE] } rfl] at h
    apply Prod.ext
    · rw [h, destroy_ret, hx _ (by simp)]
    · rw [destroy_trace, h]
      simp [Result.aborted, Result.state]
  · have h := alternate_skipped A s a hst hok ha
    rw [hx _ rfl] at h
    apply Prod.ext
    · rw [h, destroy_ret, hx _ (by simp)]
    · rw [destroy_trace, h]
      simp [Result.aborted, Result.state]

/-- A callable attached in stage `WITH` never makes the operator throw or
call `exit`, whatever the callable and `mgr.get` do. -/
theorem primary_never_escapes (A : ContextManager M T Args) (s : with_impl M) (p : Step T)
    (hst : s.stage = .WITH) (hp : p.is_else_tag = false) :
    (attach A s p).returned = true ∧
    (attach A s p).state.stage = .ELSE ∧
    exit_calls (attach A s p).state.trace = exit_calls s.trace := by
  cases p with
  | else_tag => simp [Step.is_else_tag] at hp
  | void_value fn =>
    simp only [attach, with_impl.operator_ge_void_value, hst, if_true]
    cases hok : s.ok
    · simp [Result.returned, Result.state]
    · rcases hg : A.get s.mgr with e | r
      · simp [Result.returned, Result.state, exit_calls]
      · rcases hfn : fn r.value with ⟨e | u, w⟩ <;>
          simp [Result.returned, Result.state, exit_calls, hfn]
  | void_noarg fn =>
    simp only [attach, with_impl.operator_ge_void_noarg, hst, if_true, reduceCtorEq, if_false]
    cases hok : s.ok
    · simp [Result.returned, Result.state]
    · rcases hfn : fn () with e | u <;> simp [Result.returned, Result.state, exit_calls, hfn]

/-- A callable attached in stage `WITH` is invoked at most once, in `WITH`. -/
theorem primary_calls (A : ContextManager M T Args) (s : with_impl M) (p : Step T)
    (hst : s.stage = .WITH) (st : Stage) :
    body_calls st (attach A s p).state.trace
      ≤ body_calls st s.trace + (if st = .WITH then 1 else 0) := by
  cases p with
  | else_tag => simp [attach, with_impl.operator_ge_else, hst, Result.state]
  | void_value fn =>
    simp only [attach, with_impl.operator_ge_void_value, hst, if_true]
    cases hok : s.ok
    · simp [Result.state]
    · rcases hg : A.get s.mgr with e | r
      · simp [Result.state, body_calls]
      · rcases hfn : fn r.value with ⟨e | u, w⟩ <;> cases st <;>
          simp [Result.state, body_calls, hfn]
  | void_noarg fn =>
    simp only [attach, with_impl.operator_ge_void_noarg, hst, if_true, reduceCtorEq, if_false]
    cases hok : s.ok
    · simp [Result.state]
    · rcases hfn : fn () with e | u <;> cases st <;> simp [Result.state, body_calls, hfn]

/-- The stage after the `ELSE` branch: `DONE` when the operator returns,
still `ELSE` when an exception leaves it. -/
theorem else_branch_stage (A : ContextManager M T Args) (s : with_impl M)
    (fn : Unit → Except Exn Unit) (hst : s.stage = .ELSE) :
    (with_impl.else_branch A s fn).state.stage
      = if (with_impl.else_branch A s fn).returned then .DONE else .ELSE := by
  unfold with_impl.else_branch
  rw [if_pos hst]
  cases hok : s.ok
  · rcases hfn : fn () with e | u
    · simp [Result.returned, Result.state, hst]
    · simp only [Bool.false_eq_true, if_false]
      rcases hx : with_impl.exit_rethrow A _ with ⟨_ | e, s2⟩
      · simp [Result.returned, Result.state]
      · have h2 := congrArg (fun x => x.2.stage) hx
        simp only [exit_rethrow_stage] at h2
        simp [Result.returned, Result.state, ← h2, hst]
  · simp only [if_true]
    rcases hx : with_impl.exit_rethrow A _ with ⟨_ | e, s2⟩
    · simp [Result.returned, Result.state]
    · have h2 := congrArg (fun x => x.2.stage) hx
      simp only [exit_rethrow_stage] at h2
      simp [Result.returned, Result.state, ← h2, hst]

theorem attach_no_arg_ELSE_stage (A : ContextManager M T Args) (s : with_impl M) (a : Step T)
    (hst : s.stage = .ELSE) (ha : a.no_arg = true) :
    (attach A s a).state.stage = if (attach A s a).returned then .DONE else .ELSE := by
  cases a <;> simp [Step.no_arg] at ha
  · simpa [attach, with_impl.operator_ge_void_noarg, hst] using else_branch_stage A s _ hst

/-- One `operator>=`: the stage stays or moves one forward, the callable is
invoked at most once and in the stage the block is in, and an operator that
invoked it and returned has moved the stage forward. -/
theorem attach_step (A : ContextManager M T Args) (s : with_impl M) (p : Step T) (st : Stage) :
    s.stage.toNat ≤ (attach A s p).state.stage.toNat ∧
    (attach A s p).state.stage.toNat ≤ s.stage.toNat + 1 ∧
    body_calls st (attach A s p).state.trace
      ≤ body_calls st s.trace + (if st = s.stage then 1 else 0) ∧
    ((attach A s p).returned = true →
      body_calls st s.trace < body_calls st (attach A s p).state.trace →
      s.stage.toNat < (attach A s p).state.stage.toNat) := by
  have hab : ∀ r : Result M, r = .abort s →
      s.stage.toNat ≤ r.state.stage.toNat ∧ r.state.stage.toNat ≤ s.stage.toNat + 1 ∧
      body_calls st r.state.trace ≤ body_calls st s.trace + (if st = s.stage then 1 else 0) ∧
      (r.returned = true → body_calls st s.trace < body_calls st r.state.trace →
        s.stage.toNat < r.state.stage.toNat) := by
    intro r hr
    subst hr
    simp [Result.state, Result.returned]
  cases hst : s.stage
  · by_cases hp : p.is_else_tag = true
    · rw [← hst]
      apply hab
      cases p <;> simp [Step.is_else_tag] at hp
      simp [attach, with_impl.operator_ge_else, hst]
    · have h1 := primary_never_escapes A s p hst (by simpa using hp)
      have h2 := primary_calls A s p hst st
      rw [h1.2.1]
      refine ⟨by decide, by decide, ?_, fun _ _ => by decide⟩
      simpa [eq_comm] using h2
  · cases hp : p.no_arg
    · by_cases he : p.is_else_tag = true
      · have : attach A s p = .ret s := by
          cases p <;> simp [Step.is_else_tag] at he
          exact attach_else_tag_ELSE A s hst
        rw [this]
        simp [Result.state, hst]
      · rw [← hst]
        apply hab
        cases p <;> simp_all [Step.is_else_tag, Step.no_arg, attach,
          with_impl.operator_ge_void_value]
    · have h1 := attach_no_arg_ELSE_stage A s p hst hp
      have h2 := (attach_no_arg_ELSE_calls A s p hst hp st).2
      rw [h1, h2]
      cases hr : (attach A s p).returned <;> cases st <;> cases s.ok <;>
        simp [Stage.toNat]
  · rw [← hst]
    apply hab
    cases p <;>
      simp [attach, with_impl.operator_ge_else, with_impl.operator_ge_void_value,
        with_impl.operator_ge_void_noarg,
        hst]

/-- A chain: the stage never moves backward, and in each stage the block is
still to pass through at most one callable is invoked; none in a stage it has
left. -/
theorem chain_invariant (A : ContextManager M T Args) (ops : List (Step T)) (st : Stage) :
    ∀ s : with_impl M,
      s.stage.toNat ≤ (chain A s ops).state.stage.toNat ∧
      body_calls st (chain A s ops).state.trace
        ≤ body_calls st s.trace + (if s.stage.toNat ≤ st.toNat then 1 else 0) := by
  induction ops with
  | nil => intro s; simp [chain, Result.state]
  | cons p rest ih =>
    intro s
    obtain ⟨h1, -, h3, h4⟩ := attach_step A s p st
    cases hr : attach A s p with
    | ret s1 =>
      rw [chain_cons_ret A s s1 p rest hr]
      rw [hr] at h1 h3 h4
      simp only [Result.state, Result.returned] at h1 h3 h4
      obtain ⟨i1, i2⟩ := ih s1
      refine ⟨le_trans h1 i1, ?_⟩
      by_cases hlt : body_calls st s.trace < body_calls st s1.trace
      · have hadv := h4 trivial hlt
        have hst : st = s.stage := by
          by_contra hne
          simp [hne] at h3
          omega
        subst hst
        have : ¬ (s1.stage.toNat ≤ s.stage.toNat) := by omega
        simp only [this, if_false] at i2
        simp only [le_refl, if_true]
        split at h3 <;> omega
      · have hle : body_calls st s1.trace ≤ body_calls st s.trace := by omega
        by_cases hc : s1.stage.toNat ≤ st.toNat
        · have : s.stage.toNat ≤ st.toNat := le_trans h1 hc
          simp only [hc, this, if_true] at i2 ⊢
          omega
        · simp only [hc, if_false] at i2
          split <;> omega
    | throw e s1 =>
      have hc : chain A s (p :: rest) = .throw e s1 := by rw [chain, hr]
      rw [hc]
      rw [hr] at h1 h3
      simp only [Result.state] at h1 h3 ⊢
      refine ⟨h1, ?_⟩
      split at h3
      · rename_i h; subst h; simpa using h3
      · split <;> omega
    | abort s1 =>
      have hc : chain A s (p :: rest) = .abort s1 := by rw [chain, hr]
      rw [hc]
      rw [hr] at h1 h3
      simp only [Result.state] at h1 h3 ⊢
      refine ⟨h1, ?_⟩
      split at h3
      · rename_i h; subst h; simpa using h3
      · split <;> omega

/-- An alternate body that throws, on a block holding no exception: the
destructor calls `exit` with the empty pointer and the caller receives the
exception of the alternate body. -/
theorem alternate_raises_then_destroy (A : ContextManager M T Args) (s : with_impl M)
    (a : Step T) (v : T) (e : Exn) (hst : s.stage = .ELSE) (hok : s.ok = false)
    (hex : s.exception = none) (ha : a.no_arg = true)
    (hae : a.outcome v = some (.error e)) :
    destroy A (attach A s a) = (.raised e, s.trace ++ [.call .ELSE, .exit none]) := by
  rw [alternate_raises A s a v e hst hok ha hae]
  apply Prod.ext
  · rw [destroy_throw,
      exit_rethrow_of_no_exception A { s with trace := s.trace ++ [.call .ELSE] } hex]
  · rw [destroy_trace]
    simp [Result.aborted, Result.state, hex]

/-- The `ELSE` branch changes neither `ok` nor the stored exception. -/
theorem else_branch_frame (A : ContextManager M T Args) (s : with_impl M)
    (fn : Unit → Except Exn Unit) :
    (with_impl.else_branch A s fn).state.ok = s.ok ∧
    (with_impl.else_branch A s fn).state.exception = s.exception := by
  unfold with_impl.else_branch
  split
  · cases hok : s.ok
    · rcases hfn : fn () with e | u
      · simp [Result.state, hok]
      · simp only [Bool.false_eq_true, if_false]
        rcases hx : with_impl.exit_rethrow A _ with ⟨_ | e, s2⟩
        · have h2 := congrArg (fun x => x.2.ok) hx
          have h3 := congrArg (fun x => x.2.exception) hx
          simp only [exit_rethrow_ok, exit_rethrow_exception] at h2 h3
          simp [Result.state, ← h2, ← h3, hok]
        · have h2 := congrArg (fun x => x.2.ok) hx
          have h3 := congrArg (fun x => x.2.exception) hx
          simp only [exit_rethrow_ok, exit_rethrow_exception] at h2 h3
          simp [Result.state, ← h2, ← h3, hok]
    · simp only [if_true]
      rcases hx : with_impl.exit_rethrow A _ with ⟨_ | e, s2⟩
      · have h2 := congrArg (fun x => x.2.ok) hx
        have h3 := congrArg (fun x => x.2.exception) hx
        simp only [exit_rethrow_ok, exit_rethrow_exception] at h2 h3
        simp [Result.state, ← h2, ← h3, hok]
      · have h2 := congrArg (fun x => x.2.ok) hx
        have h3 := congrArg (fun x => x.2.exception) hx
        simp only [exit_rethrow_ok, exit_rethrow_exception] at h2 h3
        simp [Result.state, ← h2, ← h3, hok]
  · simp [Result.state]

/-- A no-argument callable attached in stage `ELSE` changes neither `ok` nor
the stored exception. -/
theorem attach_no_arg_ELSE_frame (A : ContextManager M T Args) (s : with_impl M) (a : Step T)
    (hst : s.stage = .ELSE) (ha : a.no_arg = true) :
    (attach A s a).state.ok = s.ok ∧ (attach A s a).state.exception = s.exception := by
  cases a <;> simp [Step.no_arg] at ha
  · simpa [attach, with_impl.operator_ge_void_noarg, hst] using else_branch_frame A s _

/-- The operators use only `get` and `exit` of the manager. -/
theorem attach_congr (A B : ContextManager M T Args) (s : with_impl M) (p : Step T)
    (hget : A.get = B.get) (hexit : A.exit = B.exit) : attach A s p = attach B s p := by
  cases p <;>
    simp only [attach, with_impl.operator_ge_void_value, with_impl.operator_ge_void_noarg,
      with_impl.else_branch, with_impl.exit_rethrow, hget, hexit]

theorem chain_congr (A B : ContextManager M T Args) (ops : List (Step T))
    (hget : A.get = B.get) (hexit : A.exit = B.exit) :
    ∀ s : with_impl M, chain A s ops = chain B s ops := by
  induction ops with
  | nil => intro s; rfl
  | cons p rest ih =>
    intro s
    simp only [chain, attach_congr A B s p hget hexit]
    cases attach B s p <;> simp [ih]

theorem destroy_congr (A B : ContextManager M T Args) (r : Result M)
    (hexit : A.exit = B.exit) : destroy A r = destroy B r := by
  cases r <;> simp only [destroy, with_impl.dtor, with_impl.exit_rethrow, hexit]

/-- A callable attached in stage `WITH` to a block that holds no exception
stores one only when `ok` is true, and leaves `ok` true then. -/
theorem primary_captured (A : ContextManager M T Args) (s : with_impl M) (p : Step T)
    (hst : s.stage = .WITH) (hnone : s.exception = none) :
    (attach A s p).state.exception ≠ none → (attach A s p).state.ok = true := by
  cases p with
  | else_tag => simp [attach, with_impl.operator_ge_else, hst, Result.state, hnone]
  | void_value fn =>
    simp only [attach, with_impl.operator_ge_void_value, hst, if_true]
    cases hok : s.ok
    · simp [Result.state, hnone]
    · rcases hg : A.get s.mgr with e | r
      · simp [Result.state, hok]
      · rcases hfn : fn r.value with ⟨e | u, w⟩ <;> simp [Result.state, hok, hnone, hfn]
  | void_noarg fn =>
    simp only [attach, with_impl.operator_ge_void_noarg, hst, if_true, reduceCtorEq, if_false]
    cases hok : s.ok
    · simp [Result.state, hnone]
    · rcases hfn : fn () with e | u <;> simp [Result.state, hok, hnone, hfn]

/-- The invariant of `with_impl` kept by every operator: in stage `WITH` no
exception is stored and no callable has been invoked in `ELSE`; a stored
exception goes with `ok` true; a callable invoked in `ELSE` goes with no
stored exception. -/
theorem attach_captured_invariant (A : ContextManager M T Args) (s : with_impl M) (p : Step T)
    (h0 : s.stage = .WITH → s.exception = none ∧ body_calls .ELSE s.trace = 0)
    (h1 : s.exception ≠ none → s.ok = true)
    (h2 : 0 < body_calls .ELSE s.trace → s.exception = none) :
    ((attach A s p).state.stage = .WITH →
      (attach A s p).state.exception = none ∧
      body_calls .ELSE (attach A s p).state.trace = 0) ∧
    ((attach A s p).state.exception ≠ none → (attach A s p).state.ok = true) ∧
    (0 < body_calls .ELSE (attach A s p).state.trace →
      (attach A s p).state.exception = none) := by
  have hab : ∀ r : Result M, r = .abort s ∨ r = .ret s →
      (r.state.stage = .WITH → r.state.exception = none ∧ body_calls .ELSE r.state.trace = 0) ∧
      (r.state.exception ≠ none → r.state.ok = true) ∧
      (0 < body_calls .ELSE r.state.trace → r.state.exception = none) := by
    intro r hr
    rcases hr with hr | hr <;> subst hr <;> exact ⟨h0, h1, h2⟩
  cases hst : s.stage
  · by_cases hp : p.is_else_tag = true
    · apply hab
      left
      cases p <;> simp [Step.is_else_tag] at hp
      simp [attach, with_impl.operator_ge_else, hst]
    · have k1 := primary_never_escapes A s p hst (by simpa using hp)
      have k2 := primary_calls A s p hst .ELSE
      have k3 := primary_captured A s p hst (h0 hst).1
      rw [(h0 hst).2] at k2
      simp only [reduceCtorEq, if_false, Nat.add_zero, Nat.le_zero_eq] at k2
      refine ⟨fun h => ?_, k3, fun h => ?_⟩
      · rw [k1.2.1] at h; cases h
      · omega
  · cases hp : p.no_arg
    · apply hab
      by_cases he : p.is_else_tag = true
      · right
        cases p <;> simp [Step.is_else_tag] at he
        exact attach_else_tag_ELSE A s hst
      · left
        cases p <;> simp_all [Step.is_else_tag, Step.no_arg, attach,
          with_impl.operator_ge_void_value]
    · have k1 := attach_no_arg_ELSE_frame A s p hst hp
      have k2 := (attach_no_arg_ELSE_calls A s p hst hp .ELSE).2
      have k3 := attach_no_arg_ELSE_stage A s p hst hp
      rw [k1.1, k1.2, k2]
      refine ⟨fun h => ?_, h1, fun h => ?_⟩
      · rw [k3] at h
        split at h <;> cases h
      · by_cases hex : s.exception = none
        · exact hex
        · have hok := h1 hex
          simp only [hok, Bool.true_eq_false, and_false, if_false, Nat.add_zero] at h
          exact h2 h
  · apply hab
    left
    cases p <;>
      simp [attach, with_impl.operator_ge_else, with_impl.operator_ge_void_value,
        with_impl.operator_ge_void_noarg,
        hst]

theorem chain_captured_invariant (A : ContextManager M T Args) (ops : List (Step T)) :
    ∀ s : with_impl M,
      (s.stage = .WITH → s.exception = none ∧ body_calls .ELSE s.trace = 0) →
      (s.exception ≠ none → s.ok = true) →
      (0 < body_calls .ELSE s.trace → s.exception = none) →
      ((chain A s ops).state.exception ≠ none → (chain A s ops).state.ok = true) ∧
      (0 < body_calls .ELSE (chain A s ops).state.trace →
        (chain A s ops).state.exception = none) := by
  induction ops with
  | nil => intro s _ h1 h2; exact ⟨h1, h2⟩
  | cons p rest ih =>
    intro s h0 h1 h2
    have k := attach_captured_invariant A s p h0 h1 h2
    cases hr : attach A s p with
    | ret s1 =>
      rw [chain_cons_ret A s s1 p rest hr]
      rw [hr] at k
      exact ih s1 k.1 k.2.1 k.2.2
    | throw e s1 =>
      have hc : chain A s (p :: rest) = .throw e s1 := by rw [chain, hr]
      rw [hc]
      rw [hr] at k
      exact ⟨k.2.1, k.2.2⟩
    | abort s1 =>
      have hc : chain A s (p :: rest) = .abort s1 := by rw [chain, hr]
      rw [hc]
      rw [hr] at k
      exact ⟨k.2.1, k.2.2⟩

/-- The `ELSE` branch makes no call of `mgr.get`. -/
theorem else_branch_gets (A : ContextManager M T Args) (s : with_impl M)
    (fn : Unit → Except Exn Unit) :
    get_calls (with_impl.else_branch A s fn).state.trace = get_calls s.trace := by
  unfold with_impl.else_branch
  split
  · cases hok : s.ok
    · rcases hfn : fn () with e | u
      · simp [Result.state, get_calls]
      · simp only [Bool.false_eq_true, if_false]
        rcases hx : with_impl.exit_rethrow A _ with ⟨_ | e, s2⟩
        · have h2 := congrArg (fun x => x.2.trace) hx
          simp only [exit_rethrow_trace] at h2
          simp [Result.state, get_calls, ← h2]
        · have h2 := congrArg (fun x => x.2.trace) hx
          simp only [exit_rethrow_trace] at h2
          simp [Result.state, get_calls, ← h2]
    · simp only [if_true]
      rcases hx : with_impl.exit_rethrow A _ with ⟨_ | e, s2⟩
      · have h2 := congrArg (fun x => x.2.trace) hx
        simp only [exit_rethrow_trace] at h2
        simp [Result.state, get_calls, ← h2]
      · have h2 := congrArg (fun x => x.2.trace) hx
        simp only [exit_rethrow_trace] at h2
        simp [Result.state, get_calls, ← h2]
  · simp [Result.state]

/-- An operator calls `mgr.get` exactly when the block is in stage `WITH`
with `ok` true and the callable takes the managed value; it then calls it
once. -/
theorem attach_gets (A : ContextManager M T Args) (s : with_impl M) (p : Step T) :
    get_calls (attach A s p).state.trace
      = get_calls s.trace
        + (if s.stage = .WITH ∧ s.ok = true ∧ p.takes_value = true then 1 else 0) := by
  cases p with
  | else_tag =>
    simp only [attach, with_impl.operator_ge_else, Step.takes_value]
    split <;> simp [Result.state]
  | void_value fn =>
    simp only [attach, with_impl.operator_ge_void_value, Step.takes_value]
    cases hst : s.stage <;> simp only [reduceCtorEq, if_true, if_false] <;>
      try simp [Result.state]
    cases hok : s.ok
    · simp [Result.state]
    · rcases hg : A.get s.mgr with e | r
      · simp [Result.state, get_calls]
      · rcases hfn : fn r.value with ⟨e | u, w⟩ <;> simp [Result.state, get_calls, hfn]
  | void_noarg fn =>
    simp only [attach, with_impl.operator_ge_void_noarg, Step.takes_value]
    cases hst : s.stage <;> simp only [reduceCtorEq, if_true, if_false]
    · cases hok : s.ok
      · simp [Result.state]
      · rcases hfn : fn () with e | u <;> simp [Result.state, get_calls, hfn]
    · simpa using else_branch_gets A s fn
    · simp [Result.state]

/-- A block reached by a chain that returned is in stage `WITH` only when the
chain is empty. -/
theorem reached_in_WITH (A : ContextManager M T Args) (ops : List (Step T))
    (s0 s : with_impl M) (hreach : chain A s0 ops = .ret s) (hst : s.stage = .WITH) :
    s = s0 := by
  cases ops with
  | nil =>
    simp only [chain] at hreach
    cases hreach
    rfl
  | cons p rest =>
    exfalso
    cases hr : attach A s0 p with
    | ret s1 =>
      rw [chain_cons_ret A s0 s1 p rest hr] at hreach
      have k1 := (chain_invariant A rest .WITH s1).1
      rw [hreach] at k1
      simp only [Result.state, hst] at k1
      have hs1 : s1.stage = .WITH := by
        cases h : s1.stage <;> simp [h, Stage.toNat] at k1
        rfl
      have k2 := (attach_step A s0 p .WITH).1
      rw [hr] at k2
      simp only [Result.state, hs1] at k2
      have hs0 : s0.stage = .WITH := by
        cases h : s0.stage <;> simp [h, Stage.toNat] at k2
        rfl
      by_cases hp : p.is_else_tag = true
      · cases p <;> simp [Step.is_else_tag] at hp
        simp [attach, with_impl.operator_ge_else, hs0] at hr
      · have k3 := (primary_never_escapes A s0 p hs0 (by simpa using hp)).2.1
        rw [hr] at k3
        simp only [Result.state] at k3
        rw [hs1] at k3
        cases k3
    | throw e s1 => simp [chain, hr] at hreach
    | abort s1 => simp [chain, hr] at hreach

/-- Destruction of the temporary makes no call of `mgr.get`. -/
theorem destroy_gets (A : ContextManager M T Args) (r : Result M) :
    get_calls (destroy A r).2 = get_calls r.state.trace := by
  rw [destroy_trace]
  split
  · rfl
  · simp [get_calls]

/-- Every call of `mgr.get` made by an operator on a block reached from the
ordinary constructor: the block is the one just constructed, `enter` has
returned `true`, no call of `exit` has been made, nor is one made in that
operator; so when `get` succeeds on the manager `enter` leaves, it succeeds
at that call. -/
theorem get_call_site (A : ContextManager M T Args) (args : Args) (ops : List (Step T))
    (s : with_impl M) (p : Step T)
    (hgood : ∀ m, A.enter A.init args = (.ok true, m) → ∃ r, A.get m = .ok r)
    (hreach : chain A (with_impl.ctor A args) ops = .ret s)
    (hcall : get_calls (attach A s p).state.trace ≠ get_calls s.trace) :
    s = with_impl.ctor A args ∧
    s.stage = .WITH ∧
    (A.enter A.init args).1 = .ok true ∧
    exit_calls s.trace = 0 ∧
    (∃ r, A.get s.mgr = .ok r) ∧
    get_calls (attach A s p).state.trace = get_calls s.trace + 1 ∧
    exit_calls (attach A s p).state.trace = 0 := by
  have hg := attach_gets A s p
  by_cases hc : s.stage = .WITH ∧ s.ok = true ∧ p.takes_value = true
  · rw [if_pos hc] at hg
    obtain ⟨hst, hok, hp⟩ := hc
    have hs := reached_in_WITH A ops _ s hreach hst
    have hne : p.is_else_tag = false := by
      cases p <;> simp [Step.takes_value, Step.is_else_tag] at hp ⊢
    have hex := (primary_never_escapes A s p hst hne).2.2
    have hctor : (A.enter A.init args).1 = .ok true ∧ s.trace = [.enter] ∧
        ∃ r, A.get s.mgr = .ok r := by
      rw [hs] at hok ⊢
      unfold with_impl.ctor at hok ⊢
      rcases hE : A.enter A.init args with ⟨e | b, m⟩
      · rw [hE] at hok
        simp at hok
      · rw [hE] at hok
        simp only at hok
        subst hok
        exact ⟨rfl, rfl, hgood m hE⟩
    obtain ⟨h1, h2, h3⟩ := hctor
    have h0 : exit_calls s.trace = 0 := by rw [h2]; rfl
    exact ⟨hs, hst, h1, h0, h3, hg, by rw [hex, h0]⟩
  · rw [if_neg hc] at hg
    exact absurd hg hcall

/-- The overload that `attach` applies to an operand is the one overload
resolution selects for it. -/
theorem resolve_step (p : Step T) :
    resolve p.operand
      = some (match p with
              | .else_tag => .else_tag
              | .void_value _ => .void_value
              | .void_noarg _ => .void_noarg) := by
  cases p <;> rfl

end lemmas

/-! ## Exactly-once release -/

/-- C1 (fails on the code): the loop statement of `main`, for `succeed = false`
and for `succeed = true` alike, calls `mgr.exit` twice over the lifetime of its
block: once in the `ELSE` branch of `operator>=` and once more in the
destructor, which does not look at `stage`. -/
theorem C1_main_loop_statement_exit_twice :
    main_loop_statement false = (.normal, [.enter, .call .ELSE, .exit none, .exit none]) ∧
    exit_calls (main_loop_statement false).2 = 2 ∧
    main_loop_statement true
      = (.normal, [.enter, .get, .call .WITH, .exit none, .exit none]) ∧
    exit_calls (main_loop_statement true).2 = 2 := by
  refine ⟨rfl, rfl, rfl, rfl⟩

/-! ## Acquisition gate -/

/-- A primary body that throws `e`, alone in the chain, after an `enter` that
returned `true`: the operator returns with `e` stored, the destructor calls
`exit` with `e`, and the statement completes normally when `exit` returns
`true` and ends in `std::terminate` when it returns `false`; in no case does
the caller receive `e`. -/
theorem raising_primary_alone {M T Args : Type}
    (A : ContextManager M T Args) (args : Args) (p : Step T) (v : T) (e : Exn)
    (henter : (A.enter A.init args).1 = .ok true)
    (hv : p.takes_value = true → ∃ r, A.get (A.enter A.init args).2 = .ok r ∧ r.value = v)
    (hp : p.outcome v = some (.error e)) :
    ∃ s1, attach A (with_impl.ctor A args) p = .ret s1 ∧ s1.exception = some e ∧
      with_ A args [p]
        = (if (A.exit s1.mgr (some e)).1 then .normal else .terminate,
           s1.trace ++ [.exit (some e)]) := by
  have hc := ctor_of_enter A args true henter
  obtain ⟨s1, h1, -, -, hex1, -⟩ := primary_raises A (with_impl.ctor A args) p v e
    (by rw [hc]) (by rw [hc]) (by rw [hc]; exact hv) hp
  refine ⟨s1, h1, hex1, ?_⟩
  rw [with_, chain_single, h1]
  apply Prod.ext
  · rw [destroy_ret, exit_rethrow_fst, hex1]
    cases (A.exit s1.mgr (some e)).1 <;> rfl
  · rw [destroy_trace]
    simp [Result.aborted, Result.state, hex1]

/-- C3 (fails on the code): enter succeeds and the primary body throws
`other 1`. The attach operation returns normally with the exception stored and
no call of `exit` made yet, and `exit` is then called with that exception. With
a manager whose `exit` returns `true` the statement completes normally; with
one whose `exit` returns `false` the destructor rethrows, and since it is
`noexcept` the statement ends in `std::terminate` instead of surfacing the
exception to the caller. With an alternate body attached as well, the `ELSE`
branch rethrows out of `operator>=`, the destructor calls `exit` again during
the unwinding and rethrows in its turn, which ends in `std::terminate` too. -/
theorem C3_rethrow_in_destructor_terminates :
    (attach context_manager_Resource_not_consuming
        (with_impl.ctor context_manager_Resource_not_consuming ("bar", some true))
        (raising_body (.other 1))).returned = true ∧
    (attach context_manager_Resource_not_consuming
        (with_impl.ctor context_manager_Resource_not_consuming ("bar", some true))
        (raising_body (.other 1))).state.exception = some (.other 1) ∧
    exit_calls (attach context_manager_Resource_not_consuming
        (with_impl.ctor context_manager_Resource_not_consuming ("bar", some true))
        (raising_body (.other 1))).state.trace = 0 ∧
    (with_impl.dtor context_manager_Resource_not_consuming
        (attach context_manager_Resource_not_consuming
          (with_impl.ctor context_manager_Resource_not_consuming ("bar", some true))
          (raising_body (.other 1))).state).1 = some (.other 1) ∧
    with_ context_manager_Resource_not_consuming ("bar", some true) [raising_body (.other 1)]
      = (.terminate, [.enter, .get, .call .WITH, .exit (some (.other 1))]) ∧
    with_ context_manager_Resource_not_consuming ("bar", some true)
        [raising_body (.other 1), .else_tag, main_fallback]
      = (.terminate, [.enter, .get, .call .WITH, .exit (some (.other 1)),
          .exit (some (.other 1))]) ∧
    with_ context_manager_Resource ("bar", some true) [raising_body (.other 1)]
      = (.normal, [.enter, .get, .call .WITH, .exit (some (.other 1))]) := by
  refine ⟨rfl, rfl, rfl, rfl, rfl, rfl, rfl⟩

/-- C4 (fails on the code): in the loop statement of `main` with
`succeed = true` and a primary body that throws, the block still has
`ok = true` after the primary body, and the alternate body is not invoked. -/
theorem C4_raising_body_leaves_ok_true :
    (attach context_manager_Resource
        (with_impl.ctor context_manager_Resource ("bar", some true))
        (raising_body (.other 1))).state.ok = true ∧
    (attach context_manager_Resource
        (with_impl.ctor context_manager_Resource ("bar", some true))
        (raising_body (.other 1))).state.exception = some (.other 1) ∧
    body_calls .ELSE
        (with_ context_manager_Resource ("bar", some true)
          [raising_body (.other 1), .else_tag, main_fallback]).2 = 0 ∧
    (with_ context_manager_Resource ("bar", some true)
          [raising_body (.other 1), .else_tag, main_fallback]).2
      = [.enter, .get, .call .WITH, .exit (some (.other 1)), .exit (some (.other 1))] := by
  refine ⟨rfl, rfl, rfl, rfl⟩

/-- C5 (as stated, fails on the code): with the manager of `Resource`,
`succeed = true`, a primary body that throws `other 1` and an alternate body,
the statement completes normally: the caller does not observe `other 1`. -/
theorem C5_counterexample :
    (with_ context_manager_Resource ("bar", some true)
        [raising_body (.other 1), .else_tag, main_fallback]).1 = .normal ∧
    (with_ context_manager_Resource ("bar", some true)
        [raising_body (.other 1), .else_tag, main_fallback]).1 ≠ .raised (.other 1) := by
  refine ⟨rfl, ?_⟩
  decide

/-- C5 (amended): for a block over `Resource` built with `succeed = true`
(given or defaulted), a primary body of any shape that throws `e`, and an
alternate body that does not throw: `exit` is called with `e`, the default
`exit` returns `true` for every argument, which the driver takes as
"consumed", so nothing is rethrown and the statement completes normally. -/
theorem C5_default_exit_consumes_failure (name : String) (flag : Option Bool)
    (p a : Step Resource) (e : Exn) (x : Option Bool)
    (hs : (Resource.ctor (name, flag)).successful = true)
    (hp : p.outcome (Resource.ctor (name, flag)) = some (.error e))
    (ha : a.no_arg = true)
    (hax : a.outcome (Resource.ctor (name, flag)) = some (.ok x)) :
    (∀ (m : context_manager_base Resource) (ep : exception_ptr),
        (context_manager_Resource.exit m ep).1 = true) ∧
    (with_ context_manager_Resource (name, flag) [p, a]).1 = .normal ∧
    (with_ context_manager_Resource (name, flag) [p, .else_tag, a]).1 = .normal ∧
    Event.exit (some e) ∈ (with_ context_manager_Resource (name, flag) [p, a]).2 ∧
    Event.exit (some e) ∈ (with_ context_manager_Resource (name, flag) [p, .else_tag, a]).2 := by
  have hc : with_impl.ctor context_manager_Resource (name, flag)
      = ⟨⟨some (Resource.ctor (name, flag))⟩, true, .WITH, none, [.enter]⟩ := by
    simp [with_impl.ctor, context_manager_Resource, context_manager_Resource.enter, hs]
  obtain ⟨s1, h1, hok1, hst1, hex1, -⟩ := primary_raises context_manager_Resource
    (with_impl.ctor context_manager_Resource (name, flag)) p (Resource.ctor (name, flag)) e
    (by rw [hc]) (by rw [hc])
    (fun _ => ⟨⟨Resource.ctor (name, flag), fun w => ⟨some w⟩⟩, by rw [hc]; rfl, rfl⟩) hp
  have hd := alternate_then_destroy context_manager_Resource s1 a (Resource.ctor (name, flag)) x
    hst1 ha (fun _ => hax) (fun s2 _ => exit_rethrow_of_consumed _ s2 rfl)
  have hw1 : with_ context_manager_Resource (name, flag) [p, a]
      = destroy context_manager_Resource (attach context_manager_Resource s1 a) := by
    rw [with_, chain_cons_ret _ _ _ _ _ h1, chain_single]
  have hw2 : with_ context_manager_Resource (name, flag) [p, .else_tag, a]
      = destroy context_manager_Resource (attach context_manager_Resource s1 a) := by
    rw [with_, chain_cons_ret _ _ _ _ _ h1, chain_else_tag _ _ _ hst1, chain_single]
  rw [hw1, hw2, hd]
  refine ⟨fun _ _ => rfl, ?_, ?_, ?_, ?_⟩
  · rfl
  · rfl
  · simp [hex1]
  · simp [hex1]

/-- Witness of C5 on the loop statement of `main` with a throwing body. -/
theorem C5_witness :
    (Resource.ctor ("bar", some true)).successful = true ∧
    (with_ context_manager_Resource ("bar", some true)
        [raising_body (.other 1), main_fallback]).1 = .normal ∧
    (with_ context_manager_Resource ("bar", some true)
        [raising_body (.other 1), .else_tag, main_fallback]).1 = .normal :=
  ⟨rfl,
   (C5_default_exit_consumes_failure "bar" (some true) (raising_body (.other 1)) main_fallback
      (.other 1) none rfl rfl rfl rfl).2.1,
   (C5_default_exit_consumes_failure "bar" (some true) (raising_body (.other 1)) main_fallback
      (.other 1) none rfl rfl rfl rfl).2.2.1⟩

/-! ## Boolean bodies -/

/-- C6 (fails on the code): a primary body returning `bool`, as in
`with<Resource>("bar", true) >= [&](auto &r) { return false; } >= else_ >= fallback`,
is viable for the `void` template of `operator>=` as well as for the `bool`
one, so the call is ambiguous and the statement does not compile; likewise for
a callable without argument. No operand at all selects a `bool` overload.
Were the `bool` overload called with that body on the block of
`with<Resource>("bar", true)`, `ok` would become `false` with no exception
stored, which is what the claim describes. -/
theorem C6_bool_body_call_is_ambiguous :
    viable_overloads (.callable true true) = [.void_value, .bool_value] ∧
    resolve (.callable true true) = none ∧
    viable_overloads (.callable false true) = [.void_noarg, .bool_noarg] ∧
    resolve (.callable false true) = none ∧
    (∀ t : Operand, resolve t ≠ some .bool_value ∧ resolve t ≠ some .bool_noarg) ∧
    (with_impl.operator_ge_bool_value context_manager_Resource
        (with_impl.ctor context_manager_Resource ("bar", some true))
        (fun r => (.ok false, r))).state.ok = false ∧
    (with_impl.operator_ge_bool_value context_manager_Resource
        (with_impl.ctor context_manager_Resource ("bar", some true))
        (fun r => (.ok false, r))).state.exception = none ∧
    (with_impl.operator_ge_bool_noarg context_manager_Resource
        (with_impl.ctor context_manager_Resource ("bar", some true))
        (fun _ => .ok false)).state.ok = false := by
  refine ⟨rfl, rfl, rfl, rfl, ?_, rfl, rfl, rfl⟩
  intro t
  cases t with
  | else_ptr => decide
  | callable takes_value returns_bool =>
    cases takes_value <;> cases returns_bool <;> decide

/-! ## Where failures of bodies are caught -/

/-- C7 (as stated, fails on the code): in the loop statement of `main` with
`succeed = false` and an alternate body that throws `other 7`, the exception
leaves `operator>=` uncaught: nothing is stored in the block and `exit` has
not been called when it leaves; the caller receives it. -/
theorem C7_counterexample :
    (chain context_manager_Resource
        (with_impl.ctor context_manager_Resource ("bar", some false))
        [main_body, .else_tag, raising_fallback (.other 7)]).returned = false ∧
    (chain context_manager_Resource
        (with_impl.ctor context_manager_Resource ("bar", some false))
        [main_body, .else_tag, raising_fallback (.other 7)]).state.exception = none ∧
    exit_calls (chain context_manager_Resource
        (with_impl.ctor context_manager_Resource ("bar", some false))
        [main_body, .else_tag, raising_fallback (.other 7)]).state.trace = 0 ∧
    with_ context_manager_Resource ("bar", some false)
        [main_body, .else_tag, raising_fallback (.other 7)]
      = (.raised (.other 7), [.enter, .call .ELSE, .exit none]) := by
  refine ⟨rfl, rfl, rfl, rfl⟩

/-- C7 (amended): a callable attached in stage `WITH` never makes the operator
throw, and no call of `exit` is made in that step; when the callable is
reached and throws, the exception is stored in the block. A failure of the
alternate body (stage `ELSE`, `ok` false) is not caught: it leaves the
operator with nothing stored and before the call of `exit` of that step; the
destructor then calls `exit` with the empty pointer and the caller receives
the failure. -/
theorem C7_primary_failure_stored_alternate_failure_escapes {M T Args : Type}
    (A : ContextManager M T Args) (s t : with_impl M) (p a : Step T) (v : T) (e : Exn)
    (hs : s.stage = .WITH) (hp : p.is_else_tag = false)
    (ht : t.stage = .ELSE) (htok : t.ok = false) (hte : t.exception = none)
    (ha : a.no_arg = true) (hae : a.outcome v = some (.error e)) :
    (attach A s p).returned = true ∧
    exit_calls (attach A s p).state.trace = exit_calls s.trace ∧
    (∀ e1, s.ok = true → (p.takes_value = true → ∃ r, A.get s.mgr = .ok r ∧ r.value = v) →
      p.outcome v = some (.error e1) → (attach A s p).state.exception = some e1) ∧
    attach A t a = .throw e { t with trace := t.trace ++ [.call .ELSE] } ∧
    destroy A (attach A t a) = (.raised e, t.trace ++ [.call .ELSE, .exit none]) := by
  have h1 := primary_never_escapes A s p hs hp
  have h2 := alternate_raises A t a v e ht htok ha hae
  refine ⟨h1.1, h1.2.2, ?_, h2, ?_⟩
  · intro e1 hok hv hpe
    obtain ⟨s1, hs1, -, -, hex, -⟩ := primary_raises A s p v e1 hs hok hv hpe
    rw [hs1]
    exact hex
  · exact alternate_raises_then_destroy A t a v e ht htok hte ha hae

/-- Witness of C7: the block of `with<Resource>("bar", true)` for the primary
body; for the alternate body, the block of
`with<Resource>("bar", false) >= body >= else_`. -/
theorem C7_witness :
    (attach context_manager_Resource
        (with_impl.ctor context_manager_Resource ("bar", some true))
        (raising_body (.other 1))).returned = true ∧
    destroy context_manager_Resource
        (attach context_manager_Resource
          (chain context_manager_Resource
            (with_impl.ctor context_manager_Resource ("bar", some false))
            [main_body, .else_tag]).state
          (raising_fallback (.other 7)))
      = (.raised (.other 7), [.enter, .call .ELSE, .exit none]) :=
  ⟨(C7_primary_failure_stored_alternate_failure_escapes context_manager_Resource
      (with_impl.ctor context_manager_Resource ("bar", some true))
      (chain context_manager_Resource
        (with_impl.ctor context_manager_Resource ("bar", some false))
        [main_body, .else_tag]).state
      (raising_body (.other 1))
      (raising_fallback (.other 7)) (Resource.ctor ("bar", some true)) (.other 7)
      rfl rfl rfl rfl rfl rfl rfl).1,
   (C7_primary_failure_stored_alternate_failure_escapes context_manager_Resource
      (with_impl.ctor context_manager_Resource ("bar", some true))
      (chain context_manager_Resource
        (with_impl.ctor context_manager_Resource ("bar", some false))
        [main_body, .else_tag]).state
      (raising_body (.other 1))
      (raising_fallback (.other 7)) (Resource.ctor ("bar", some true)) (.other 7)
      rfl rfl rfl rfl rfl rfl rfl).2.2.2.2⟩

/-! ## Rejected operands -/

/-- C8 (as stated, fails on the code): the tag `else_` attached in stage
`WITH`, as in `with<Resource>("foo") >= else_`, fails the assertion, although
it is not among the stages the claim lists as forbidden. -/
theorem C8_counterexample :
    (with_impl.ctor context_manager_Resource ("foo", none)).stage = .WITH ∧
    (attach context_manager_Resource
        (with_impl.ctor context_manager_Resource ("foo", none)) .else_tag).aborted = true ∧
    spec_forbidden (.else_tag : Step Resource) .WITH = false := by
  refine ⟨rfl, rfl, rfl⟩

/-- C8 (amended): an operand is rejected by an assertion exactly when the
stage is `DONE`, or it takes the managed value and the stage is `ELSE`, or it
is the tag `else_` and the stage is `WITH`. So every operand is rejected in
`DONE`, a value-taking callable is accepted only in `WITH`, a no-argument
callable is accepted in `WITH` and in `ELSE`, and the tag only in `ELSE`. -/
theorem C8_rejected_exactly {M T Args : Type}
    (A : ContextManager M T Args) (s : with_impl M) (p : Step T) :
    (attach A s p).aborted
      = (spec_forbidden p s.stage || (p.is_else_tag && decide (s.stage = .WITH))) := by
  cases hst : s.stage
  · have h := primary_never_escapes A s p hst
    cases p with
    | else_tag => simp [attach, with_impl.operator_ge_else, hst, Result.aborted, spec_forbidden,
        Step.is_else_tag, Step.takes_value]
    | void_value fn =>
      have h1 := (h rfl).1
      cases hr : attach A s (.void_value fn) <;>
        simp_all [Result.returned, Result.aborted, spec_forbidden, Step.is_else_tag]
    | void_noarg fn =>
      have h1 := (h rfl).1
      cases hr : attach A s (.void_noarg fn) <;>
        simp_all [Result.returned, Result.aborted, spec_forbidden, Step.is_else_tag]
  · cases p with
    | else_tag => simp [attach, with_impl.operator_ge_else, hst, Result.aborted, spec_forbidden,
        Step.is_else_tag, Step.takes_value]
    | void_value fn => simp [attach, with_impl.operator_ge_void_value, hst, Result.aborted,
        spec_forbidden, Step.is_else_tag, Step.takes_value]
    | void_noarg fn =>
      have h := (attach_no_arg_ELSE_calls A s (.void_noarg fn) hst rfl .WITH).1
      simp [h, spec_forbidden, Step.is_else_tag, Step.takes_value]
  · cases p <;>
      simp [attach, with_impl.operator_ge_else, with_impl.operator_ge_void_value,
        with_impl.operator_ge_void_noarg,
        hst, Result.aborted, spec_forbidden,
        Step.is_else_tag, Step.takes_value]

/-! ## Stages -/

/-- C10 (as stated, fails on the code): with the default manager and a
constructor that throws, `enter` does not return `false`: the exception leaves
`enter`. -/
theorem C10_counterexample :
    (context_manager_base.enter throwing_ctor ⟨none⟩ 0).1 = .error (.other 0) ∧
    (context_manager_base.enter throwing_ctor ⟨none⟩ 0).1 ≠ .ok false := by
  refine ⟨rfl, ?_⟩
  intro h
  cases h

/-- C10 (amended): `enter` has no handler. With the default manager, an
exception thrown by the constructor of the managed value leaves `enter`, the
container being left empty; it is the ordinary constructor of the block that
catches it and sets `ok` to `false`, while the `pass_exceptions` constructor
lets it through. The `enter` of `context_manager<Resource>` constructs a
`Resource`, whose constructor does not throw here, and returns its
`successful` flag. -/
theorem C10_enter_failure_caught_by_block_constructor {T Args : Type}
    (ctor : Args → Except Exn T) (args : Args) (e : Exn) (m : context_manager_base T)
    (h : ctor args = .error e) :
    context_manager_base.enter ctor m args = (.error e, ⟨none⟩) ∧
    with_impl.ctor (context_manager T Args ctor) args
      = ⟨⟨none⟩, false, .WITH, none, [.enter]⟩ ∧
    with_impl.ctor_pass_exceptions (context_manager T Args ctor) args = .error e ∧
    (∀ (mr : context_manager_base Resource) (rargs : ResourceArgs),
      context_manager_Resource.enter mr rargs
        = (.ok (Resource.ctor rargs).successful, ⟨some (Resource.ctor rargs)⟩)) := by
  refine ⟨?_, ?_, ?_, fun _ _ => rfl⟩
  · simp [context_manager_base.enter, h]
  · simp [with_impl.ctor, context_manager, context_manager_base.enter, h]
  · simp [with_impl.ctor_pass_exceptions, context_manager, context_manager_base.enter, h]

/-- Witness of C10: a managed `Nat` whose constructor throws on 0. -/
theorem C10_witness :
    throwing_ctor 0 = .error (.other 0) ∧
    with_impl.ctor (context_manager Nat Nat throwing_ctor) 0
      = ⟨⟨none⟩, false, .WITH, none, [.enter]⟩ :=
  ⟨rfl, (C10_enter_failure_caught_by_block_constructor throwing_ctor 0 (.other 0) ⟨none⟩ rfl).2.1⟩

/-! ## The success path -/

/-- C11: enter returns `true` and a single primary body, of any shape, is
attached and does not throw. Then the body is invoked exactly once, no
callable is invoked in stage `ELSE`, `exit` is called exactly once (by the
destructor) and the statement completes normally. -/
theorem C11_single_body_once_exit_once {M T Args : Type}
    (A : ContextManager M T Args) (args : Args) (p : Step T) (v : T) (x : Option Bool)
    (henter : (A.enter A.init args).1 = .ok true)
    (hv : p.takes_value = true → ∃ r, A.get (A.enter A.init args).2 = .ok r ∧ r.value = v)
    (hp : p.outcome v = some (.ok x)) :
    (with_ A args [p]).1 = .normal ∧
    body_calls .WITH (with_ A args [p]).2 = 1 ∧
    body_calls .ELSE (with_ A args [p]).2 = 0 ∧
    exit_calls (with_ A args [p]).2 = 1 := by
  have hc := ctor_of_enter A args true henter
  obtain ⟨s1, h1, -, -, hex1, htr1⟩ := primary_returns A (with_impl.ctor A args) p v x
    (by rw [hc]) (by rw [hc]) (by rw [hc]; exact hv) hp
  have hex : s1.exception = none := by rw [hex1, hc]
  have hw : with_ A args [p]
      = (.normal, [.enter] ++ (if p.takes_value then [.get] else []) ++ [.call .WITH]
          ++ [.exit none]) := by
    rw [with_, chain_single, h1]
    apply Prod.ext
    · rw [destroy_ret, exit_rethrow_of_no_exception A s1 hex]
    · rw [destroy_trace]
      simp [Result.aborted, Result.state, hex, htr1, hc]
  rw [hw]
  refine ⟨rfl, ?_, ?_, ?_⟩ <;> cases p.takes_value <;> simp [body_calls, exit_calls]

/-- Witness of C11: the first two statements of `main`,
`with<Resource>("foo") >= body` and `with<Resource>("bar", true) >= body`. -/
theorem C11_witness :
    (context_manager_Resource.enter context_manager_Resource.init ("foo", none)).1
        = .ok true ∧
    (main_statement_1.1 = .normal ∧
      body_calls .WITH main_statement_1.2 = 1 ∧
      body_calls .ELSE main_statement_1.2 = 0 ∧
      exit_calls main_statement_1.2 = 1) ∧
    (main_statement_2.1 = .normal ∧
      body_calls .WITH main_statement_2.2 = 1 ∧
      body_calls .ELSE main_statement_2.2 = 0 ∧
      exit_calls main_statement_2.2 = 1) :=
  ⟨rfl,
   C11_single_body_once_exit_once context_manager_Resource ("foo", none)
      (.void_noarg (fun _ => .ok ())) (Resource.ctor ("foo", none)) none rfl
      (fun h => by simp [Step.takes_value] at h) rfl,
   C11_single_body_once_exit_once context_manager_Resource ("bar", some true)
      (.void_value (fun r => (.ok (), r))) (Resource.ctor ("bar", some true)) none rfl
      (fun _ => ⟨⟨Resource.ctor ("bar", some true), fun w => ⟨some w⟩⟩, rfl, rfl⟩) rfl⟩

/-! ## The managers -/

/-- C12: the `enter` of `context_manager<Resource>` called with a name and a
flag returns the flag, called with a name alone returns `true`; in both cases
the manager then holds the `Resource` just constructed, and `get` returns
it. -/
theorem C12_Resource_enter_returns_flag (m : context_manager_base Resource)
    (name : String) (succeed : Bool) :
    context_manager_Resource.enter m (name, some succeed)
      = (.ok succeed, ⟨some ⟨name, succeed⟩⟩) ∧
    context_manager_Resource.enter m (name, none) = (.ok true, ⟨some ⟨name, true⟩⟩) ∧
    (∃ r, context_manager_base.get (context_manager_Resource.enter m (name, some succeed)).2
        = .ok r ∧ r.value = ⟨name, succeed⟩) ∧
    (∃ r, context_manager_base.get (context_manager_Resource.enter m (name, none)).2
        = .ok r ∧ r.value = ⟨name, true⟩) := by
  refine ⟨rfl, rfl, ⟨_, rfl, rfl⟩, ⟨_, rfl, rfl⟩⟩

/-- C13: the `exit` of `context_manager_base<T>`, called with any exception
pointer on any manager, returns `true` and leaves the container empty, so
that a `get` after it throws `bad_optional_access`; neither the value
returned nor the manager left depends on the pointer. -/
theorem C13_default_exit_empties_container {T : Type} (m : context_manager_base T)
    (e e1 : exception_ptr) :
    (context_manager_base.exit m e).1 = true ∧
    (context_manager_base.exit m e).2.context = none ∧
    context_manager_base.get (context_manager_base.exit m e).2
      = .error .bad_optional_access ∧
    context_manager_base.exit m e = context_manager_base.exit m e1 := by
  refine ⟨rfl, rfl, rfl, rfl⟩

/-! ## Single steps -/

/-- C14: a callable returning `void` (taking the managed value or not) is
attached to a block in stage `WITH`; when it takes the value, `mgr.get()`
returns a reference. Then the operator returns, the callable has been invoked
exactly when `ok` was true, `ok` is what it was (also when the callable
throws), an exception thrown by the callable is stored and otherwise the
stored exception is unchanged, and the stage is `ELSE`. -/
theorem C14_void_body_in_WITH {M T Args : Type}
    (A : ContextManager M T Args) (s : with_impl M) (p : Step T) (v : T)
    (res : Except Exn (Option Bool))
    (hst : s.stage = .WITH) (hvoid : p.returns_void = true)
    (hv : s.ok = true → p.takes_value = true → ∃ r, A.get s.mgr = .ok r ∧ r.value = v)
    (hp : p.outcome v = some res) :
    (attach A s p).returned = true ∧
    (attach A s p).state.ok = s.ok ∧
    (attach A s p).state.stage = .ELSE ∧
    body_calls .WITH (attach A s p).state.trace
      = body_calls .WITH s.trace + (if s.ok then 1 else 0) ∧
    (attach A s p).state.exception
      = (match s.ok, res with
         | true, .error e => some e
         | _, _ => s.exception) := by
  have hne : p.is_else_tag = false := by
    cases p <;> simp [Step.returns_void, Step.is_else_tag] at hvoid ⊢
  cases hok : s.ok with
  | false =>
    rw [attach_WITH_not_ok A s p hst hok hne]
    simp [Result.returned, Result.state, hok]
  | true =>
    cases res with
    | error e =>
      obtain ⟨s1, h1, hok1, hst1, hex1, htr1⟩ := primary_raises A s p v e hst hok (hv hok) hp
      rw [h1]
      refine ⟨rfl, hok1, hst1, ?_, ?_⟩
      · simp only [Result.state, htr1]
        cases p.takes_value <;> simp [body_calls]
      · simpa [Result.state] using hex1
    | ok x =>
      obtain ⟨s1, h1, hok1, hst1, hex1, htr1⟩ := primary_returns A s p v x hst hok (hv hok) hp
      have hx : x = none := by
        cases p <;> simp [Step.returns_void] at hvoid <;>
          (simp only [Step.outcome] at hp
           split at hp <;> simp at hp
           exact hp.symm)
      subst hx
      rw [h1]
      refine ⟨rfl, hok1, hst1, ?_, ?_⟩
      · simp only [Result.state, htr1]
        cases p.takes_value <;> simp [body_calls]
      · simpa [Result.state] using hex1

/-- Witness of C14: the body of the second statement of `main` on the block
of `with<Resource>("bar", true)`. -/
theorem C14_witness :
    (attach context_manager_Resource
        (with_impl.ctor context_manager_Resource ("bar", some true))
        (.void_value (fun r => (.ok (), r)))).state.ok = true ∧
    (attach context_manager_Resource
        (with_impl.ctor context_manager_Resource ("bar", some true))
        (.void_value (fun r => (.ok (), r)))).state.stage = .ELSE :=
  ⟨(C14_void_body_in_WITH context_manager_Resource
      (with_impl.ctor context_manager_Resource ("bar", some true))
      (.void_value (fun r => (.ok (), r))) (Resource.ctor ("bar", some true)) (.ok none)
      rfl rfl (fun _ _ => ⟨⟨Resource.ctor ("bar", some true), fun w => ⟨some w⟩⟩, rfl, rfl⟩)
      rfl).2.1,
   (C14_void_body_in_WITH context_manager_Resource
      (with_impl.ctor context_manager_Resource ("bar", some true))
      (.void_value (fun r => (.ok (), r))) (Resource.ctor ("bar", some true)) (.ok none)
      rfl rfl (fun _ _ => ⟨⟨Resource.ctor ("bar", some true), fun w => ⟨some w⟩⟩, rfl, rfl⟩)
      rfl).2.2.1⟩

/-- C17: the tag `else_` chained on a block in stage `ELSE` returns the block
as it is: `ok`, the stage, the stored exception and the manager are the same,
no callable is invoked and `exit` is not called; chained on a block in stage
`WITH` or `DONE` it fails the assertion. -/
theorem C17_else_tag_changes_nothing {M T Args : Type}
    (A : ContextManager M T Args) (s t : with_impl M)
    (hs : s.stage = .ELSE) (ht : t.stage = .WITH ∨ t.stage = .DONE) :
    (attach A s .else_tag).returned = true ∧
    (attach A s .else_tag).state.ok = s.ok ∧
    (attach A s .else_tag).state.stage = s.stage ∧
    (attach A s .else_tag).state.exception = s.exception ∧
    (attach A s .else_tag).state.mgr = s.mgr ∧
    (attach A s .else_tag).state.trace = s.trace ∧
    (∀ st, body_calls st (attach A s .else_tag).state.trace = body_calls st s.trace) ∧
    exit_calls (attach A s .else_tag).state.trace = exit_calls s.trace ∧
    (attach A t .else_tag).aborted = true := by
  rw [attach_else_tag_ELSE A s hs]
  refine ⟨rfl, rfl, rfl, rfl, rfl, rfl, fun _ => rfl, rfl, ?_⟩
  rcases ht with h | h <;> simp [attach, with_impl.operator_ge_else, h, Result.aborted]

/-- Witness of C17: the tag on the block of `with<Resource>("bar", true) >= body`
(stage `ELSE`) and on the block of `with<Resource>("bar", true)` (stage `WITH`). -/
theorem C17_witness :
    (attach context_manager_Resource
        (chain context_manager_Resource
          (with_impl.ctor context_manager_Resource ("bar", some true)) [main_body]).state
        .else_tag).returned = true ∧
    (attach context_manager_Resource
        (with_impl.ctor context_manager_Resource ("bar", some true))
        .else_tag).aborted = true :=
  ⟨(C17_else_tag_changes_nothing context_manager_Resource
      (chain context_manager_Resource
        (with_impl.ctor context_manager_Resource ("bar", some true)) [main_body]).state
      (with_impl.ctor context_manager_Resource ("bar", some true)) rfl (Or.inl rfl)).1,
   (C17_else_tag_changes_nothing context_manager_Resource
      (chain context_manager_Resource
        (with_impl.ctor context_manager_Resource ("bar", some true)) [main_body]).state
      (with_impl.ctor context_manager_Resource ("bar", some true)) rfl
      (Or.inl rfl)).2.2.2.2.2.2.2.2⟩

/-- C20: with the `exit` of `context_manager_base<T>`, a second call, with any
pointer, after a first one returns `true` like the first and leaves the
manager as the first call left it, with the container empty. For the driver:
on a block over `context_manager<T>` neither the first nor a repeated
exit-and-rethrow statement rethrows, and the repeated one leaves the manager
unchanged. -/
theorem C20_default_exit_idempotent {T Args : Type} (ctor : Args → Except Exn T)
    (m : context_manager_base T) (e1 e2 : exception_ptr)
    (s : with_impl (context_manager_base T)) :
    (context_manager_base.exit m e1).1 = true ∧
    (context_manager_base.exit (context_manager_base.exit m e1).2 e2).1 = true ∧
    (context_manager_base.exit (context_manager_base.exit m e1).2 e2).2
      = (context_manager_base.exit m e1).2 ∧
    (context_manager_base.exit m e1).2 = ⟨none⟩ ∧
    (with_impl.exit_rethrow (context_manager T Args ctor) s).1 = none ∧
    (with_impl.exit_rethrow (context_manager T Args ctor)
        (with_impl.exit_rethrow (context_manager T Args ctor) s).2).1 = none ∧
    (with_impl.exit_rethrow (context_manager T Args ctor)
        (with_impl.exit_rethrow (context_manager T Args ctor) s).2).2.mgr
      = (with_impl.exit_rethrow (context_manager T Args ctor) s).2.mgr := by
  refine ⟨rfl, rfl, rfl, rfl, ?_, ?_, ?_⟩
  · exact exit_rethrow_of_consumed _ s rfl
  · exact exit_rethrow_of_consumed _ _ rfl
  · simp [context_manager, context_manager_base.exit]

/-! ## Construction -/

/-- C19: when `enter` throws, the ordinary constructor still completes, with
`ok` false, stage `WITH` and no stored exception (unlike the `pass_exceptions`
constructor, out of which the exception goes). The block then behaves as after
an `enter` that returned `false`: every statement ends as, and makes the calls
of, the same statement over a manager whose `enter` returns `false` leaving
the same state; in particular a primary body is never invoked and an
alternate body exactly once. -/
theorem C19_ordinary_constructor_catches {M T Args : Type}
    (A : ContextManager M T Args) (args : Args) (e : Exn) (m : M)
    (henter : A.enter A.init args = (.error e, m)) :
    with_impl.ctor A args = ⟨m, false, .WITH, none, [.enter]⟩ ∧
    with_impl.ctor_pass_exceptions A args = .error e ∧
    (∀ B : ContextManager M T Args, B.get = A.get → B.exit = A.exit →
      B.enter B.init args = (.ok false, m) →
      ∀ ops : List (Step T), with_ A args ops = with_ B args ops) ∧
    (∀ p a : Step T, p.is_else_tag = false → a.no_arg = true →
      body_calls .WITH (with_ A args [p, a]).2 = 0 ∧
      body_calls .ELSE (with_ A args [p, a]).2 = 1) := by
  have hc : with_impl.ctor A args = ⟨m, false, .WITH, none, [.enter]⟩ := by
    simp [with_impl.ctor, henter]
  refine ⟨hc, by simp [with_impl.ctor_pass_exceptions, henter], ?_, ?_⟩
  · intro B hget hexit hB ops
    have hcB : with_impl.ctor B args = ⟨m, false, .WITH, none, [.enter]⟩ := by
      simp [with_impl.ctor, hB]
    rw [with_, with_, hc, hcB, chain_congr A B ops hget.symm hexit.symm,
      destroy_congr A B _ hexit.symm]
  · intro p a hp ha
    have h1 := attach_WITH_not_ok A (with_impl.ctor A args) p (by rw [hc]) (by rw [hc]) hp
    have hcalls : ∀ st, body_calls st (with_ A args [p, a]).2
        = if st = .ELSE then 1 else 0 := by
      intro st
      have h2 := attach_no_arg_ELSE_calls A { with_impl.ctor A args with stage := .ELSE } a
        rfl ha st
      rw [with_, destroy_body_calls, chain_cons_ret A _ _ p [a] h1, chain_single, h2.2, hc]
      simp [body_calls]
    exact ⟨by simpa using hcalls .WITH, by simpa using hcalls .ELSE⟩

/-- Witness of C19: `context_manager<T>` for a managed type whose constructor
throws on 0. -/
theorem C19_witness :
    (context_manager Nat Nat throwing_ctor).enter (context_manager Nat Nat throwing_ctor).init 0
      = (.error (.other 0), ⟨none⟩) ∧
    (with_impl.ctor (context_manager Nat Nat throwing_ctor) 0).ok = false ∧
    body_calls .ELSE (with_ (context_manager Nat Nat throwing_ctor) 0
      [.void_value (fun n => (.ok (), n)), .void_noarg (fun _ => .ok ())]).2 = 1 :=
  ⟨rfl,
   congrArg with_impl.ok (C19_ordinary_constructor_catches
      (context_manager Nat Nat throwing_ctor) 0 (.other 0) ⟨none⟩ rfl).1,
   ((C19_ordinary_constructor_catches (context_manager Nat Nat throwing_ctor) 0
      (.other 0) ⟨none⟩ rfl).2.2.2 (.void_value (fun n => (.ok (), n)))
      (.void_noarg (fun _ => .ok ())) rfl rfl).2⟩

/-! ## Stored exception and `ok` -/

/-- C18: in the block reached from the ordinary constructor by any chain of
operators (returned, or left by an exception, or stopped by an assertion), a
stored exception goes with `ok` true; so a block on which the alternate body
has been invoked holds no exception, and the destructor of a statement that
invoked the alternate body has nothing to rethrow. -/
theorem C18_captured_failure_implies_ok {M T Args : Type}
    (A : ContextManager M T Args) (args : Args) (ops : List (Step T)) :
    ((chain A (with_impl.ctor A args) ops).state.exception ≠ none →
      (chain A (with_impl.ctor A args) ops).state.ok = true) ∧
    (0 < body_calls .ELSE (chain A (with_impl.ctor A args) ops).state.trace →
      (chain A (with_impl.ctor A args) ops).state.exception = none) ∧
    (0 < body_calls .ELSE (with_ A args ops).2 → (with_ A args ops).1 ≠ .terminate) := by
  have hc : (with_impl.ctor A args).stage = .WITH ∧ (with_impl.ctor A args).exception = none ∧
      (with_impl.ctor A args).trace = [.enter] := by
    unfold with_impl.ctor
    rcases A.enter A.init args with ⟨r | b, m⟩ <;> exact ⟨rfl, rfl, rfl⟩
  have hinv := chain_captured_invariant A ops (with_impl.ctor A args)
    (fun _ => ⟨hc.2.1, by rw [hc.2.2]; rfl⟩) (fun h => absurd hc.2.1 h)
    (fun h => hc.2.1)
  refine ⟨hinv.1, hinv.2, ?_⟩
  intro h
  rw [with_, destroy_body_calls] at h
  have hex := hinv.2 h
  rw [with_]
  cases hr : chain A (with_impl.ctor A args) ops with
  | ret s1 =>
    rw [hr] at hex
    rw [destroy_ret, exit_rethrow_of_no_exception A s1 hex]
    simp
  | throw e s1 =>
    rw [hr] at hex
    rw [destroy_throw, exit_rethrow_of_no_exception A s1 hex]
    simp
  | abort s1 => simp [destroy]

/-! ## Order of the calls of `get` -/

/-- C16: take any block reached from the ordinary constructor by operators
that returned, over `context_manager<T>` or over `context_manager<Resource>`
(whose `get` is that of `context_manager_base`), and any operator that calls
`mgr.get` on it. Then the block is in stage `WITH`, `enter` has returned
`true`, no call of `exit` has been made before the call of `get` nor is one
made in that operator, and the container holds a value, which `get` returns:
`get` does not throw. The destructor makes no call of `get`. -/
theorem C16_get_called_on_held_value {T Args : Type} (ctor : Args → Except Exn T)
    (args : Args) (ops : List (Step T)) (s : with_impl (context_manager_base T)) (p : Step T)
    (rargs : ResourceArgs) (rops : List (Step Resource))
    (rs : with_impl (context_manager_base Resource)) (rp : Step Resource)
    (hreach : chain (context_manager T Args ctor)
      (with_impl.ctor (context_manager T Args ctor) args) ops = .ret s)
    (hcall : get_calls (attach (context_manager T Args ctor) s p).state.trace
      ≠ get_calls s.trace)
    (hrreach : chain context_manager_Resource
      (with_impl.ctor context_manager_Resource rargs) rops = .ret rs)
    (hrcall : get_calls (attach context_manager_Resource rs rp).state.trace
      ≠ get_calls rs.trace) :
    (s.stage = .WITH ∧
      ((context_manager T Args ctor).enter (context_manager T Args ctor).init args).1
        = .ok true ∧
      exit_calls s.trace = 0 ∧
      exit_calls (attach (context_manager T Args ctor) s p).state.trace = 0 ∧
      ∃ r, context_manager_base.get s.mgr = .ok r ∧ s.mgr.context = some r.value) ∧
    (rs.stage = .WITH ∧
      (context_manager_Resource.enter context_manager_Resource.init rargs).1 = .ok true ∧
      exit_calls rs.trace = 0 ∧
      exit_calls (attach context_manager_Resource rs rp).state.trace = 0 ∧
      ∃ r, context_manager_base.get rs.mgr = .ok r ∧ rs.mgr.context = some r.value) ∧
    (∀ r : Result (context_manager_base T),
      get_calls (destroy (context_manager T Args ctor) r).2 = get_calls r.state.trace) := by
  have hbase : ∀ {U : Type} (m : context_manager_base U) (r : Ref (context_manager_base U) U),
      context_manager_base.get m = .ok r → m.context = some r.value := by
    intro U m r h
    unfold context_manager_base.get at h
    split at h
    · rename_i v hv
      cases h
      exact hv
    · cases h
  refine ⟨?_, ?_, fun r => destroy_gets _ r⟩
  · obtain ⟨-, h1, h2, h3, ⟨r, h4⟩, -, h6⟩ := get_call_site (context_manager T Args ctor)
      args ops s p (by
        intro m hm
        simp only [context_manager, context_manager_base.enter] at hm
        split at hm
        · cases hm
          exact ⟨_, rfl⟩
        · cases hm) hreach hcall
    exact ⟨h1, h2, h3, h6, r, h4, hbase _ _ h4⟩
  · obtain ⟨-, h1, h2, h3, ⟨r, h4⟩, -, h6⟩ := get_call_site context_manager_Resource
      rargs rops rs rp (by
        intro m hm
        have hm2 : m = ⟨some (Resource.ctor rargs)⟩ := (congrArg Prod.snd hm).symm
        subst hm2
        exact ⟨_, rfl⟩) hrreach hrcall
    exact ⟨h1, h2, h3, h6, r, h4, hbase _ _ h4⟩

/-- Witness of C16: a managed `Nat` built from 5 with a body taking the value,
and the second statement of `main`. -/
theorem C16_witness :
    (with_impl.ctor (context_manager Nat Nat throwing_ctor) 5).mgr.context = some 5 ∧
    (with_impl.ctor context_manager_Resource ("bar", some true)).stage = .WITH ∧
    exit_calls (attach context_manager_Resource
      (with_impl.ctor context_manager_Resource ("bar", some true))
      (.void_value (fun r => (.ok (), r)))).state.trace = 0 :=
  ⟨rfl,
   (C16_get_called_on_held_value throwing_ctor 5 []
      (with_impl.ctor (context_manager Nat Nat throwing_ctor) 5)
      (.void_value (fun n => (.ok (), n)))
      ("bar", some true) [] (with_impl.ctor context_manager_Resource ("bar", some true))
      (.void_value (fun r => (.ok (), r))) rfl (by decide) rfl (by decide)).2.1.1,
   (C16_get_called_on_held_value throwing_ctor 5 []
      (with_impl.ctor (context_manager Nat Nat throwing_ctor) 5)
      (.void_value (fun n => (.ok (), n)))
      ("bar", some true) [] (with_impl.ctor context_manager_Resource ("bar", some true))
      (.void_value (fun r => (.ok (), r))) rfl (by decide) rfl (by decide)).2.1.2.2.2.1⟩

end PythonicWith
